import Mathlib

/-!
# Sliver: external-builder RPCs and build registry (server/rpc/rpc-generate.go)

A shallow embedding of the RPC handlers of `server/rpc/rpc-generate.go`.
The handlers are translated statement by statement; the packages they call
(`db`, `generate`, `util`, `codenames`, `cryptography`, `core`) are not part of
the translated file, so each collaborator is a small explicit model acting on a
`World` value: the database tables, the filesystem, the event broker, a log of
collaborator invocations and the outcomes the environment will produce.
-/

namespace Sliver

deriving instance DecidableEq for Except

/-! ## Data model -/

/-- Output formats of `clientpb.OutputFormat` named by the handlers. -/
inductive OutputFormat where
  | SHARED_LIB
  | SHELLCODE
  | EXECUTABLE
  | SERVICE
  | EXTERNAL
  deriving DecidableEq, Repr

/-- The record `models.ImplantConfig`: the fields the handlers read. -/
structure ImplantConfig where
  ID : String
  Format : OutputFormat
  deriving DecidableEq, Repr

/-- The message `clientpb.ImplantConfig`: the fields the handlers read or write. -/
structure PBImplantConfig where
  ID : String
  Name : String
  Format : OutputFormat
  deriving DecidableEq, Repr

/-- File contents: a sequence of bytes, each a number below 256. -/
abbrev Bytes := List Nat

/-- The record `models.ImplantBuild`: `Name` and `ImplantConfig` are the fields the
handlers read; `Path` is the third argument handed to `generate.ImplantBuildSave`
(the storage pointer of the spec). -/
structure ImplantBuild where
  Name : String
  ImplantConfig : ImplantConfig
  Path : String
  deriving DecidableEq, Repr

/-- A location in the filesystem: `tmp n` is the file `ioutil.TempFile` creates in
the temporary directory from the pattern "sliver-external-build" and the suffix `n`;
`named s` is any other path. -/
inductive Path where
  | tmp (n : Nat)
  | named (s : String)
  deriving DecidableEq, Repr

/-- Event kinds of `client/constants` published by the handlers. -/
inductive EventType where
  | BuildCompletedEvent
  | ExternalBuildEvent
  | ProfileEvent
  | BuildEvent
  deriving DecidableEq, Repr

/-- The value `core.Event`: kind and payload. -/
structure Event where
  EventType : EventType
  Data : String
  deriving DecidableEq, Repr

/-- Errors a collaborator hands back to a handler, by the kinds of the spec's taxonomy. -/
inductive CollabError where
  | NotFound
  | DuplicateName
  | FormatMismatch
  | StorageFailure
  | CryptoFailure
  | CodenameFailure
  deriving DecidableEq, Repr

/-- Errors a handler returns: the ones it builds itself, and a collaborator's error
passed through unchanged (`return nil, err`). -/
inductive Error where
  | InvalidImplantConfig
  | InvalidProfileName
  | InvalidArgument (msg : String)
  | Internal (msg : String)
  | ErrInvalidName
  | ErrBuildExists
  | Collab (e : CollabError)
  deriving DecidableEq, Repr

/-- One invocation of a collaborator that generates a value or writes. Lookups are
reads and are not logged. -/
inductive Call where
  | GetCodename
  | TOTPServerSecret
  | SliverExternal (name : String) (configID : String)
  | TempFile
  | Write (p : Path) (data : Bytes)
  | Remove (p : Path)
  | ImplantBuildSave (name : String) (configID : String) (fPath : String)
  | SaveImplantProfile (name : String)
  | DbDelete (name : String)
  | ImplantFileDelete (name : String)
  deriving DecidableEq, Repr

/-- What the environment will answer: the codename and one-time secret the generators
produce (`none` when they fail) and which fallible collaborators fail. -/
structure Env where
  codename : Option String
  otpSecret : Option String
  tempFileFails : Bool
  writeFails : Bool
  removeFails : Bool
  buildSaveFails : Bool
  dbDeleteFails : Bool
  fileDeleteFails : Bool
  profileSaveFails : Bool
  deriving DecidableEq, Repr

/-- The server state the handlers act on. -/
structure World where
  configs : List ImplantConfig
  builds : List ImplantBuild
  profiles : List (String × Option ImplantConfig)
  files : List (Path × Bytes)
  events : List Event
  calls : List Call
  env : Env
  deriving DecidableEq, Repr

/-- The message `clientpb.ExternalImplantBinary`; `Data` is `req.File.Data`. -/
structure ExternalImplantBinary where
  Name : String
  ImplantConfigID : String
  Data : Bytes
  deriving DecidableEq, Repr

/-- The message `clientpb.ExternalImplantConfig`: the ticket handed to a builder. -/
structure ExternalImplantConfig where
  Name : String
  Config : PBImplantConfig
  OTPSecret : String
  deriving DecidableEq, Repr

/-- The message `clientpb.GenerateReq`. -/
structure GenerateReq where
  Config : PBImplantConfig
  deriving DecidableEq, Repr

/-- The message `clientpb.ImplantProfile`. -/
structure ImplantProfile where
  Name : String
  Config : PBImplantConfig
  deriving DecidableEq, Repr

/-- The message `clientpb.DeleteReq`. -/
structure DeleteReq where
  Name : String
  deriving DecidableEq, Repr

/-- Pure helpers of other packages, taken as parameters: `util.AllowedName` (true
when it returns no error), `generate.ImplantConfigFromProtobuf` (`none` for a nil
config) and the method `ToProtobuf` of `models.ImplantConfig`. -/
structure Deps where
  AllowedName : String → Bool
  ImplantConfigFromProtobuf : PBImplantConfig → String × Option ImplantConfig
  ToProtobuf : ImplantConfig → PBImplantConfig

/-! ## Collaborators -/

/-- Modelled from the spec: `db.ImplantConfigByID` is missing; it is the registry's
`lookupByConfigID(id) -> ImplantConfig | NotFoundError`. -/
def db.ImplantConfigByID (w : World) (id : String) : Option ImplantConfig :=
  w.configs.find? (fun c => c.ID == id)

/-- Modelled from the spec: `db.ImplantBuildByName` is missing; it is the registry's
`lookupByName(name) -> ImplantBuild | NotFoundError`. -/
def db.ImplantBuildByName (w : World) (name : String) : Option ImplantBuild :=
  w.builds.find? (fun b => b.Name == name)

/-- Record one collaborator invocation. -/
def logCall (w : World) (c : Call) : World :=
  { w with calls := w.calls ++ [c] }

/-- A suffix no temporary file of `files` carries. -/
def freshTmp : List (Path × Bytes) → Nat
  | [] => 0
  | (Path.tmp n, _) :: fs => max (n + 1) (freshTmp fs)
  | (Path.named _, _) :: fs => freshTmp fs

/-- The call `ioutil.TempFile("", "sliver-external-build")`: creates an empty file
under a name no existing file has and returns it, or fails and creates nothing. -/
def ioutil.TempFile (w : World) : Option Path × World :=
  let w1 := logCall w Call.TempFile
  if w.env.tempFileFails then (none, w1)
  else (some (Path.tmp (freshTmp w.files)),
        { w1 with files := w1.files ++ [(Path.tmp (freshTmp w.files), [])] })

/-- Give the file at `p` the contents `data`. -/
def fsWrite (files : List (Path × Bytes)) (p : Path) (data : Bytes) : List (Path × Bytes) :=
  files.map (fun f => if f.1 = p then (p, data) else f)

/-- Unlink the file at `p`. -/
def fsRemove (files : List (Path × Bytes)) (p : Path) : List (Path × Bytes) :=
  files.filter (fun f => decide (f.1 ≠ p))

/-- The call `tmpFile.Write(data)` on the file at `p`: true when the write succeeded. -/
def os.File.Write (w : World) (p : Path) (data : Bytes) : Bool × World :=
  let w1 := logCall w (Call.Write p data)
  if w.env.writeFails then (false, w1)
  else (true, { w1 with files := fsWrite w1.files p data })

/-- The call `os.Remove(p)`, whose error the handler drops (line 311): the file is
unlinked, or the removal fails and the file stays. -/
def os.Remove (w : World) (p : Path) : World :=
  let w1 := logCall w (Call.Remove p)
  if w.env.removeFails then w1
  else { w1 with files := fsRemove w1.files p }

/-- The files after a call that created its temporary file and left `data` in it: the
files from before, and the temporary file as well when its removal failed. -/
def filesAfterStore (w : World) (data : Bytes) : List (Path × Bytes) :=
  if w.env.removeFails = true then w.files ++ [(Path.tmp (freshTmp w.files), data)]
  else w.files

/-- Modelled from the spec: `generate.ImplantBuildSave` is missing; it is the registry's
`insertIfAbsent(name, config, storagePointer) -> BuildID | DuplicateNameError`, an
atomic check-and-insert that can also fail with a storage failure. -/
def generate.ImplantBuildSave (w : World) (name : String) (config : ImplantConfig) (fPath : String) :
    Option CollabError × World :=
  let w1 := logCall w (Call.ImplantBuildSave name config.ID fPath)
  if w.env.buildSaveFails then (some CollabError.StorageFailure, w1)
  else if (db.ImplantBuildByName w name).isSome then (some CollabError.DuplicateName, w1)
  else (none, { w1 with builds := w1.builds ++ [ImplantBuild.mk name config fPath] })

/-- Modelled from the spec: `core.EventBroker.Publish` is missing; it is the notifier's
fire-and-forget `publish(event)`, recorded here in publish order. -/
def core.EventBroker.Publish (w : World) (ev : Event) : World :=
  { w with events := w.events ++ [ev] }

/-! ## GenerateExternalSaveBuild (lines 288-328) -/

/-- Lines 289-304 of `GenerateExternalSaveBuild`: resolve the config, check its format,
check the name, pre-check the registry. Reads only. -/
def saveBuildValidate (d : Deps) (w : World) (req : ExternalImplantBinary) :
    Except Error ImplantConfig :=
  match db.ImplantConfigByID w req.ImplantConfigID with
  | none => Except.error (Error.InvalidArgument "invalid implant config id")
  | some implantConfig =>
    if implantConfig.Format ≠ OutputFormat.EXTERNAL then
      Except.error (Error.InvalidArgument "invalid implant config format")
    else if d.AllowedName req.Name = false then
      Except.error Error.ErrInvalidName
    else
      match db.ImplantBuildByName w req.Name with
      | some _ => Except.error Error.ErrBuildExists
      | none => Except.ok implantConfig

/-- Lines 306-327 of `GenerateExternalSaveBuild`: temp file, deferred removal, write,
`generate.ImplantBuildSave(req.Name, implantConfig, "")`, event. -/
def saveBuildStore (w : World) (req : ExternalImplantBinary) (implantConfig : ImplantConfig) :
    Except Error Unit × World :=
  match ioutil.TempFile w with
  | (none, w1) =>
    (Except.error (Error.Internal "Failed to write implant binary to temp file"), w1)
  | (some tmpFile, w1) =>
    match os.File.Write w1 tmpFile req.Data with
    | (false, w2) =>
      (Except.error (Error.Internal "Failed to write implant binary to temp file"),
        os.Remove w2 tmpFile)
    | (true, w2) =>
      match generate.ImplantBuildSave w2 req.Name implantConfig "" with
      | (some err, w3) => (Except.error (Error.Collab err), os.Remove w3 tmpFile)
      | (none, w3) =>
        (Except.ok (),
          os.Remove (core.EventBroker.Publish w3 (Event.mk EventType.BuildCompletedEvent
            (req.Name ++ " build completed"))) tmpFile)

/-- The handler `GenerateExternalSaveBuild`. -/
def GenerateExternalSaveBuild (d : Deps) (w : World) (req : ExternalImplantBinary) :
    Except Error Unit × World :=
  match saveBuildValidate d w req with
  | Except.error e => (Except.error e, w)
  | Except.ok implantConfig => saveBuildStore w req implantConfig

/-! ## GenerateExternalGetImplantConfig (lines 330-354) -/

/-- Modelled from the spec: `codenames.GetCodename` is missing; it is the codename
generator `next() -> name | Error`. -/
def codenames.GetCodename (w : World) : Option String × World :=
  (w.env.codename, logCall w Call.GetCodename)

/-- Modelled from the spec: `cryptography.TOTPServerSecret` is missing; it is the
one-time-secret generator `derive() -> secret | Error`. -/
def cryptography.TOTPServerSecret (w : World) : Option String × World :=
  (w.env.otpSecret, logCall w Call.TOTPServerSecret)

/-- The handler `GenerateExternalGetImplantConfig`. -/
def GenerateExternalGetImplantConfig (d : Deps) (w : World) (req : PBImplantConfig) :
    Except Error ExternalImplantConfig × World :=
  match db.ImplantConfigByID w req.ID with
  | none => (Except.error (Error.InvalidArgument "invalid implant config id"), w)
  | some implantConfig =>
    if implantConfig.Format ≠ OutputFormat.EXTERNAL then
      (Except.error (Error.InvalidArgument "invalid implant config format"), w)
    else
      match codenames.GetCodename w with
      | (none, w1) => (Except.error (Error.Collab CollabError.CodenameFailure), w1)
      | (some name, w1) =>
        match cryptography.TOTPServerSecret w1 with
        | (none, w2) => (Except.error (Error.Collab CollabError.CryptoFailure), w2)
        | (some otpSecret, w2) =>
          (Except.ok (ExternalImplantConfig.mk name (d.ToProtobuf implantConfig) otpSecret), w2)

/-! ## GenerateExternal (lines 262-286) -/

/-- Modelled from the spec: `generate.SliverExternal` is missing; it is the ticket issuer's
`issue(config) -> ExternalBuildTicket`, with the precondition `config.format == EXTERNAL`
(otherwise `FormatMismatchError`); it derives a one-time secret, returns the ticket with
the assigned name and the config snapshot, and does not touch the registry. -/
def generate.SliverExternal (d : Deps) (w : World) (name : String) (config : ImplantConfig) :
    Except CollabError ExternalImplantConfig × World :=
  let w1 := logCall w (Call.SliverExternal name config.ID)
  if config.Format ≠ OutputFormat.EXTERNAL then (Except.error CollabError.FormatMismatch, w1)
  else
    match w.env.otpSecret with
    | none => (Except.error CollabError.CryptoFailure, w1)
    | some otpSecret =>
      (Except.ok (ExternalImplantConfig.mk name (d.ToProtobuf config) otpSecret), w1)

/-- The handler `GenerateExternal`. The second component is the request after the call:
line 274 assigns `req.Config.Format`. -/
def GenerateExternal (d : Deps) (w : World) (req : GenerateReq) :
    Except Error ExternalImplantConfig × GenerateReq × World :=
  match (if (d.ImplantConfigFromProtobuf req.Config).1 = "" then codenames.GetCodename w
         else (some (d.ImplantConfigFromProtobuf req.Config).1, w)) with
  | (none, w1) => (Except.error (Error.Collab CollabError.CodenameFailure), req, w1)
  | (some name, w1) =>
    match (d.ImplantConfigFromProtobuf req.Config).2 with
    | none => (Except.error Error.InvalidImplantConfig, req, w1)
    | some config =>
      let req1 : GenerateReq :=
        GenerateReq.mk (PBImplantConfig.mk req.Config.ID req.Config.Name OutputFormat.EXTERNAL)
      match generate.SliverExternal d w1 name config with
      | (Except.error err, w2) => (Except.error (Error.Collab err), req1, w2)
      | (Except.ok externalConfig, w2) =>
        (Except.ok externalConfig, req1,
          core.EventBroker.Publish w2 (Event.mk EventType.ExternalBuildEvent config.ID))

/-! ## SaveImplantProfile (lines 186-202) -/

/-- The function `os.IsPathSeparator` on Unix. -/
def os.IsPathSeparator (c : Char) : Bool :=
  c == '/'

/-- First loop of `filepath.Base`: strip trailing separators. -/
def filepath.stripTrailing (path : List Char) : List Char :=
  (path.reverse.dropWhile os.IsPathSeparator).reverse

/-- Second loop of `filepath.Base`: what follows the last separator (all of the path
when it has none). -/
def filepath.lastElement (path : List Char) : List Char :=
  (path.reverse.takeWhile (fun c => !os.IsPathSeparator c)).reverse

/-- The function `filepath.Base` of the Go standard library on Unix, where the volume
name is empty and the separator is the slash. -/
def filepath.Base (path : String) : String :=
  if path = "" then "."
  else
    let last := filepath.lastElement (filepath.stripTrailing path.data)
    if last = [] then "/" else String.mk last

/-- Modelled from the spec: `generate.SaveImplantProfile` is missing and the spec leaves
profiles to the storage engine (`put`); the store keeps one profile per name and the call
can fail with a storage failure. -/
def generate.SaveImplantProfile (w : World) (name : String) (config : Option ImplantConfig) :
    Option CollabError × World :=
  let w1 := logCall w (Call.SaveImplantProfile name)
  if w.env.profileSaveFails then (some CollabError.StorageFailure, w1)
  else
    let kept := w1.profiles.filter (fun p => decide (p.1 ≠ name))
    (none, { w1 with profiles := kept ++ [(name, config)] })

/-- The handler `SaveImplantProfile`. -/
def SaveImplantProfile (d : Deps) (w : World) (profile : ImplantProfile) :
    Except Error ImplantProfile × World :=
  let config := (d.ImplantConfigFromProtobuf profile.Config).2
  let profile1 : ImplantProfile := ImplantProfile.mk (filepath.Base profile.Name) profile.Config
  if 0 < profile1.Name.length ∧ profile1.Name ≠ "." then
    match generate.SaveImplantProfile w profile1.Name config with
    | (some err, w1) => (Except.error (Error.Collab err), w1)
    | (none, w1) =>
      (Except.ok profile1,
        core.EventBroker.Publish w1 (Event.mk EventType.ProfileEvent profile1.Name))
  else (Except.error Error.InvalidProfileName, w)

/-! ## DeleteImplantBuild (lines 221-238) -/

/-- Modelled from the spec: `db.Session().Delete(build)` is the registry's
`delete(name) -> ok | NotFoundError`; it removes the record it is handed, and the
underlying storage can fail. -/
def db.Delete (w : World) (build : ImplantBuild) : Option CollabError × World :=
  let w1 := logCall w (Call.DbDelete build.Name)
  if w.env.dbDeleteFails then (some CollabError.StorageFailure, w1)
  else (none, { w1 with builds := w1.builds.erase build })

/-- Modelled from the spec: `generate.ImplantFileDelete` is missing; it is the artifact
store's deletion of the file the build points at, which can fail. -/
def generate.ImplantFileDelete (w : World) (build : ImplantBuild) : Option CollabError × World :=
  let w1 := logCall w (Call.ImplantFileDelete build.Name)
  if w.env.fileDeleteFails then (some CollabError.StorageFailure, w1)
  else
    (none, { w1 with files := fsRemove w1.files (Path.named build.Path) })

/-- The handler `DeleteImplantBuild`. A non-nil error is the call's outcome, also on
line 237 where it is returned next to an empty message. -/
def DeleteImplantBuild (w : World) (req : DeleteReq) : Except Error Unit × World :=
  match db.ImplantBuildByName w req.Name with
  | none => (Except.error (Error.Collab CollabError.NotFound), w)
  | some build =>
    match db.Delete w build with
    | (some err, w1) => (Except.error (Error.Collab err), w1)
    | (none, w1) =>
      match generate.ImplantFileDelete w1 build with
      | (some err, w2) => (Except.error (Error.Collab err), w2)
      | (none, w2) =>
        (Except.ok (), core.EventBroker.Publish w2 (Event.mk EventType.BuildEvent build.Name))

/-! ## Concurrent calls of GenerateExternalSaveBuild -/

/-- A call of `GenerateExternalSaveBuild` in flight: not started, between the registry
pre-check (line 301) and the temp file (line 306), or returned. -/
inductive Thread where
  | start (req : ExternalImplantBinary)
  | validated (req : ExternalImplantBinary) (implantConfig : ImplantConfig)
  | done (r : Except Error Unit)
  deriving DecidableEq, Repr

/-- One atomic step of a call: the reads of lines 289-304, or lines 306-327 around the
registry save. -/
def Thread.step (d : Deps) (w : World) : Thread → Thread × World
  | Thread.start req =>
    match saveBuildValidate d w req with
    | Except.error e => (Thread.done (Except.error e), w)
    | Except.ok implantConfig => (Thread.validated req implantConfig, w)
  | Thread.validated req implantConfig =>
    (Thread.done (saveBuildStore w req implantConfig).1, (saveBuildStore w req implantConfig).2)
  | Thread.done r => (Thread.done r, w)

/-- Let call number `i` take its next step. -/
def stepAt (d : Deps) : Nat → World → List Thread → World × List Thread
  | _, w, [] => (w, [])
  | 0, w, t :: ts => ((Thread.step d w t).2, (Thread.step d w t).1 :: ts)
  | i + 1, w, t :: ts => ((stepAt d i w ts).1, t :: (stepAt d i w ts).2)

/-- Run a schedule: the list of the calls that step, in order. -/
def runSchedule (d : Deps) : List Nat → World → List Thread → World × List Thread
  | [], w, ts => (w, ts)
  | i :: sched, w, ts => runSchedule d sched (stepAt d i w ts).1 (stepAt d i w ts).2

/-- The call has returned success. -/
def Thread.succeeded : Thread → Bool
  | Thread.done (Except.ok _) => true
  | _ => false

/-- The call has returned. -/
def Thread.isDone : Thread → Bool
  | Thread.done _ => true
  | _ => false

/-- The call has failed on a duplicate name: at the pre-check with `ErrBuildExists`, or at
the save with the registry's error passed through. -/
def Thread.failedDuplicate : Thread → Bool
  | Thread.done (Except.error Error.ErrBuildExists) => true
  | Thread.done (Except.error (Error.Collab CollabError.DuplicateName)) => true
  | _ => false

/-- The call has failed with the handler's own `ErrBuildExists`. -/
def Thread.failedBuildExists : Thread → Bool
  | Thread.done (Except.error Error.ErrBuildExists) => true
  | _ => false

/-! ## A concrete instance -/

/-- Modelled from the spec: `util.AllowedName` is missing; the name is validated against
an allow-list of safe characters (no path separators, no traversal sequences). Here the
list is letters, digits, hyphen and underscore, and the name is not empty. -/
def util.AllowedName (name : String) : Bool :=
  !name.data.isEmpty && name.data.all (fun c => c.isAlphanum || c == '-' || c == '_')

/-- Two dots in a row occur in the characters. -/
def hasDotDot : List Char → Bool
  | [] => false
  | c :: cs => (c == '.' && cs.head? == some '.') || hasDotDot cs

/-- The name contains a path-traversal sequence, the parent-directory component "..". -/
def containsTraversal (name : String) : Bool :=
  hasDotDot name.data

/-- Instance of the pure helpers: conversions copy the fields across. -/
def specDeps : Deps where
  AllowedName := util.AllowedName
  ImplantConfigFromProtobuf := fun pb => (pb.Name, some (ImplantConfig.mk pb.ID pb.Format))
  ToProtobuf := fun c => PBImplantConfig.mk c.ID "" c.Format

/-- An environment in which every collaborator succeeds. -/
def okEnv : Env where
  codename := some "raven-falcon"
  otpSecret := some "otp-secret"
  tempFileFails := false
  writeFails := false
  removeFails := false
  buildSaveFails := false
  dbDeleteFails := false
  fileDeleteFails := false
  profileSaveFails := false

/-- The scenario's server: the config `cfg-1` of format EXTERNAL, a config `cfg-2` of
format EXECUTABLE, nothing built yet. -/
def world0 : World where
  configs := [ImplantConfig.mk "cfg-1" OutputFormat.EXTERNAL,
    ImplantConfig.mk "cfg-2" OutputFormat.EXECUTABLE]
  builds := []
  profiles := []
  files := []
  events := []
  calls := []
  env := okEnv

/-- The scenario's submission: "raven-falcon" for `cfg-1` with 1024 bytes of payload. -/
def ravenFalcon : ExternalImplantBinary :=
  ExternalImplantBinary.mk "raven-falcon" "cfg-1" (List.replicate 1024 0)

/-- The scenario's server after the first submission of "raven-falcon". -/
def world1 : World :=
  { world0 with
    builds := [ImplantBuild.mk "raven-falcon" (ImplantConfig.mk "cfg-1" OutputFormat.EXTERNAL) ""]
    events := [Event.mk EventType.BuildCompletedEvent "raven-falcon build completed"] }

/-- The scenario's server after the first submission, with a failing artifact store. -/
def world2 : World :=
  { world1 with env := { okEnv with fileDeleteFails := true } }

/-- The scenario's server on a host where removing the temporary file fails. -/
def world3 : World :=
  { world0 with env := { okEnv with removeFails := true } }

/-- Two submissions of "raven-falcon" for `cfg-1` with different payloads. -/
def twoCalls : List ExternalImplantBinary :=
  [ExternalImplantBinary.mk "raven-falcon" "cfg-1" [1, 2],
    ExternalImplantBinary.mk "raven-falcon" "cfg-1" [3]]

/-! ## Invariant of concurrent submissions -/

/-- The registry holds a build of that name. -/
def registered (w : World) (name : String) : Bool :=
  (db.ImplantBuildByName w name).isSome

/-- What a call for `name` started on the server `w0` can look like: not started, with a
config id that resolves to an EXTERNAL config; past the pre-check; or returned with success
or a duplicate-name failure. -/
def Thread.wellFormed (w0 : World) (name : String) : Thread → Prop
  | Thread.start req =>
    req.Name = name ∧ ∃ cfg, db.ImplantConfigByID w0 req.ImplantConfigID = some cfg ∧
      cfg.Format = OutputFormat.EXTERNAL
  | Thread.validated req _ => req.Name = name
  | Thread.done r =>
    r = Except.ok () ∨ r = Except.error Error.ErrBuildExists ∨
      r = Except.error (Error.Collab CollabError.DuplicateName)

/-- What every interleaving keeps true while calls for `name`, started on `w0`, step. -/
structure RaceInv (w0 : World) (name : String) (w : World) (ts : List Thread) : Prop where
  configs : w.configs = w0.configs
  env : w.env = w0.env
  nodup : (w.builds.map ImplantBuild.Name).Nodup
  wf : ∀ t ∈ ts, Thread.wellFormed w0 name t
  count : ts.countP Thread.succeeded = if registered w name = true then 1 else 0
  fresh : registered w name = false → ∀ t ∈ ts, t.isDone = false

/-- How a call can end once the name is registered: a call that has not yet run its
pre-check stays where it is or ends with `ErrBuildExists`; a call that is past its
pre-check stays where it is or ends with the error of `generate.ImplantBuildSave`, passed
through; a call that has returned keeps its result. -/
def Thread.settles : Thread → Thread → Prop
  | Thread.start req, u =>
    u = Thread.start req ∨ u = Thread.done (Except.error Error.ErrBuildExists)
  | Thread.validated req cfg, u =>
    u = Thread.validated req cfg ∨
      u = Thread.done (Except.error (Error.Collab CollabError.DuplicateName))
  | Thread.done r, u => u = Thread.done r

/-- Call by call, the later list is how the earlier one settles. -/
def settlesAll (ts1 ts2 : List Thread) : Prop :=
  ∀ (j : Nat) (t : Thread), ts1[j]? = some t → ∃ u : Thread, ts2[j]? = some u ∧ t.settles u

/-- The steps a call still has to take. -/
def Thread.rank : Thread → Nat
  | Thread.start _ => 2
  | Thread.validated _ _ => 1
  | Thread.done _ => 0

/-- The steps call number `i` still has to take; none when there is no such call. -/
def rankAt (ts : List Thread) (i : Nat) : Nat :=
  match ts[i]? with
  | none => 0
  | some t => t.rank

/-- The server and the calls after the schedule `sched`, all calls starting on `w`. -/
def submitAll (d : Deps) (w : World) (reqs : List ExternalImplantBinary) (sched : List Nat) :
    World × List Thread :=
  runSchedule d sched w (reqs.map Thread.start)

/-! ## Filesystem lemmas -/

theorem freshTmp_gt (files : List (Path × Bytes)) (n : Nat) (b : Bytes)
    (h : (Path.tmp n, b) ∈ files) : n < freshTmp files := by
  induction files with
  | nil => simp at h
  | cons f fs ih =>
    obtain ⟨p, c⟩ := f
    cases p with
    | tmp m =>
      simp only [List.mem_cons, Prod.mk.injEq, Path.tmp.injEq] at h
      simp only [freshTmp]
      rcases h with ⟨h1, _⟩ | h
      · omega
      · have := ih h
        omega
    | named s =>
      simp only [List.mem_cons, Prod.mk.injEq] at h
      simp only [freshTmp]
      rcases h with ⟨h1, _⟩ | h
      · cases h1
      · exact ih h

theorem freshTmp_not_mem (files : List (Path × Bytes)) :
    ∀ f ∈ files, f.1 ≠ Path.tmp (freshTmp files) := by
  intro f hf hEq
  obtain ⟨p, c⟩ := f
  simp only at hEq
  subst hEq
  exact Nat.lt_irrefl _ (freshTmp_gt files _ c hf)

theorem fsWrite_absent (files : List (Path × Bytes)) (p : Path) (data : Bytes)
    (h : ∀ f ∈ files, f.1 ≠ p) : fsWrite files p data = files := by
  unfold fsWrite
  induction files with
  | nil => rfl
  | cons f fs ih =>
    have h1 : f.1 ≠ p := h f (List.mem_cons_self _ _)
    have h2 : ∀ g ∈ fs, g.1 ≠ p := fun g hg => h g (List.mem_cons_of_mem _ hg)
    simp [h1, ih h2]

theorem fsRemove_absent (files : List (Path × Bytes)) (p : Path)
    (h : ∀ f ∈ files, f.1 ≠ p) : fsRemove files p = files := by
  unfold fsRemove
  rw [List.filter_eq_self]
  intro f hf
  simpa using h f hf

theorem fsRemove_created (files : List (Path × Bytes)) (p : Path) (data : Bytes)
    (h : ∀ f ∈ files, f.1 ≠ p) : fsRemove (files ++ [(p, data)]) p = files := by
  have h1 := fsRemove_absent files p h
  unfold fsRemove at h1 ⊢
  rw [List.filter_append, h1]
  simp

theorem fsWrite_created (files : List (Path × Bytes)) (p : Path) (old data : Bytes)
    (h : ∀ f ∈ files, f.1 ≠ p) :
    fsWrite (files ++ [(p, old)]) p data = files ++ [(p, data)] := by
  have h1 := fsWrite_absent files p data h
  unfold fsWrite at h1 ⊢
  rw [List.map_append, h1]
  simp

/-- Creating the temporary file, writing it and removing it leaves the files as they were. -/
theorem tmp_roundtrip (files : List (Path × Bytes)) (data : Bytes) :
    fsRemove (fsWrite (files ++ [(Path.tmp (freshTmp files), [])])
      (Path.tmp (freshTmp files)) data) (Path.tmp (freshTmp files)) = files := by
  rw [fsWrite_created files _ _ data (freshTmp_not_mem files),
    fsRemove_created files _ data (freshTmp_not_mem files)]

theorem tmp_removed (files : List (Path × Bytes)) (data : Bytes) :
    fsRemove (files ++ [(Path.tmp (freshTmp files), data)])
      (Path.tmp (freshTmp files)) = files :=
  fsRemove_created files _ _ (freshTmp_not_mem files)

theorem tmp_written (files : List (Path × Bytes)) (data : Bytes) :
    fsWrite (files ++ [(Path.tmp (freshTmp files), [])]) (Path.tmp (freshTmp files)) data =
      files ++ [(Path.tmp (freshTmp files), data)] :=
  fsWrite_created files _ _ data (freshTmp_not_mem files)

/-! ## The store phase of GenerateExternalSaveBuild, outcome by outcome -/

theorem saveBuildStore_tempFile_fails (w : World) (req : ExternalImplantBinary)
    (cfg : ImplantConfig) (h : w.env.tempFileFails = true) :
    saveBuildStore w req cfg =
      (Except.error (Error.Internal "Failed to write implant binary to temp file"),
        { w with calls := w.calls ++ [Call.TempFile] }) := by
  simp [saveBuildStore, ioutil.TempFile, h, logCall]

theorem saveBuildStore_write_fails (w : World) (req : ExternalImplantBinary)
    (cfg : ImplantConfig) (h1 : w.env.tempFileFails = false) (h2 : w.env.writeFails = true) :
    saveBuildStore w req cfg =
      (Except.error (Error.Internal "Failed to write implant binary to temp file"),
        { w with
          files := filesAfterStore w []
          calls := w.calls ++ [Call.TempFile,
            Call.Write (Path.tmp (freshTmp w.files)) req.Data,
            Call.Remove (Path.tmp (freshTmp w.files))] }) := by
  cases hr : w.env.removeFails <;>
    simp [saveBuildStore, ioutil.TempFile, os.File.Write, os.Remove, h1, h2, hr, logCall,
      filesAfterStore, tmp_removed]

theorem saveBuildStore_save_fails (w : World) (req : ExternalImplantBinary)
    (cfg : ImplantConfig) (h1 : w.env.tempFileFails = false) (h2 : w.env.writeFails = false)
    (h3 : w.env.buildSaveFails = true) :
    saveBuildStore w req cfg =
      (Except.error (Error.Collab CollabError.StorageFailure),
        { w with
          files := filesAfterStore w req.Data
          calls := w.calls ++ [Call.TempFile,
            Call.Write (Path.tmp (freshTmp w.files)) req.Data,
            Call.ImplantBuildSave req.Name cfg.ID "",
            Call.Remove (Path.tmp (freshTmp w.files))] }) := by
  cases hr : w.env.removeFails <;>
    simp [saveBuildStore, ioutil.TempFile, os.File.Write, os.Remove, generate.ImplantBuildSave,
      h1, h2, h3, hr, logCall, filesAfterStore, tmp_written, tmp_removed]

theorem saveBuildStore_duplicate (w : World) (req : ExternalImplantBinary)
    (cfg : ImplantConfig) (h1 : w.env.tempFileFails = false) (h2 : w.env.writeFails = false)
    (h3 : w.env.buildSaveFails = false) (h4 : (db.ImplantBuildByName w req.Name).isSome = true) :
    saveBuildStore w req cfg =
      (Except.error (Error.Collab CollabError.DuplicateName),
        { w with
          files := filesAfterStore w req.Data
          calls := w.calls ++ [Call.TempFile,
            Call.Write (Path.tmp (freshTmp w.files)) req.Data,
            Call.ImplantBuildSave req.Name cfg.ID "",
            Call.Remove (Path.tmp (freshTmp w.files))] }) := by
  have h5 : (List.find? (fun b => b.Name == req.Name) w.builds).isSome = true := h4
  cases hr : w.env.removeFails <;>
    simp [saveBuildStore, ioutil.TempFile, os.File.Write, os.Remove, generate.ImplantBuildSave,
      db.ImplantBuildByName, h1, h2, h3, h5, hr, logCall, filesAfterStore, tmp_written,
      tmp_removed]

theorem saveBuildStore_ok (w : World) (req : ExternalImplantBinary)
    (cfg : ImplantConfig) (h1 : w.env.tempFileFails = false) (h2 : w.env.writeFails = false)
    (h3 : w.env.buildSaveFails = false) (h4 : db.ImplantBuildByName w req.Name = none) :
    saveBuildStore w req cfg =
      (Except.ok (),
        { w with
          builds := w.builds ++ [ImplantBuild.mk req.Name cfg ""]
          files := filesAfterStore w req.Data
          events := w.events ++
            [Event.mk EventType.BuildCompletedEvent (req.Name ++ " build completed")]
          calls := w.calls ++ [Call.TempFile,
            Call.Write (Path.tmp (freshTmp w.files)) req.Data,
            Call.ImplantBuildSave req.Name cfg.ID "",
            Call.Remove (Path.tmp (freshTmp w.files))] }) := by
  have h5 : List.find? (fun b => b.Name == req.Name) w.builds = none := h4
  cases hr : w.env.removeFails <;>
    simp [saveBuildStore, ioutil.TempFile, os.File.Write, os.Remove, generate.ImplantBuildSave,
      db.ImplantBuildByName, core.EventBroker.Publish, h1, h2, h3, h5, hr, logCall,
      filesAfterStore, tmp_written, tmp_removed]

/-! ## The validation phase -/

theorem saveBuildValidate_ok (d : Deps) (w : World) (req : ExternalImplantBinary)
    (cfg : ImplantConfig) (hcfg : db.ImplantConfigByID w req.ImplantConfigID = some cfg)
    (hfmt : cfg.Format = OutputFormat.EXTERNAL) (hname : d.AllowedName req.Name = true)
    (hnew : db.ImplantBuildByName w req.Name = none) :
    saveBuildValidate d w req = Except.ok cfg := by
  simp [saveBuildValidate, hcfg, hfmt, hname, hnew]

theorem saveBuildValidate_exists (d : Deps) (w : World) (req : ExternalImplantBinary)
    (cfg : ImplantConfig) (b : ImplantBuild)
    (hcfg : db.ImplantConfigByID w req.ImplantConfigID = some cfg)
    (hfmt : cfg.Format = OutputFormat.EXTERNAL) (hname : d.AllowedName req.Name = true)
    (hold : db.ImplantBuildByName w req.Name = some b) :
    saveBuildValidate d w req = Except.error Error.ErrBuildExists := by
  simp [saveBuildValidate, hcfg, hfmt, hname, hold]

theorem ImplantConfigByID_id (w : World) (id : String) (cfg : ImplantConfig)
    (h : db.ImplantConfigByID w id = some cfg) : cfg.ID = id := by
  have := List.find?_some h
  simpa using this

theorem ImplantBuildByName_name (w : World) (name : String) (b : ImplantBuild)
    (h : db.ImplantBuildByName w name = some b) : b.Name = name := by
  have := List.find?_some h
  simpa using this

/-- The files after the store phase: untouched when no temporary file was created;
otherwise the files from before and, when its removal failed, the temporary file with
what was written to it. -/
theorem saveBuildStore_files (w : World) (req : ExternalImplantBinary) (cfg : ImplantConfig) :
    (saveBuildStore w req cfg).2.files =
      if w.env.tempFileFails = true then w.files
      else filesAfterStore w (if w.env.writeFails = true then [] else req.Data) := by
  cases h1 : w.env.tempFileFails
  · cases h2 : w.env.writeFails
    · cases h3 : w.env.buildSaveFails
      · cases h4 : db.ImplantBuildByName w req.Name with
        | none => rw [saveBuildStore_ok w req cfg h1 h2 h3 h4]; simp
        | some b =>
          rw [saveBuildStore_duplicate w req cfg h1 h2 h3 (by simp [h4])]; simp
      · rw [saveBuildStore_save_fails w req cfg h1 h2 h3]; simp
    · rw [saveBuildStore_write_fails w req cfg h1 h2]; simp
  · rw [saveBuildStore_tempFile_fails w req cfg h1]; simp

/-- A store phase that does not succeed adds no registry entry and publishes nothing. -/
theorem saveBuildStore_failed (w : World) (req : ExternalImplantBinary) (cfg : ImplantConfig) :
    (saveBuildStore w req cfg).1 = Except.ok () ∨
      ((saveBuildStore w req cfg).2.builds = w.builds ∧
        (saveBuildStore w req cfg).2.events = w.events) := by
  cases h1 : w.env.tempFileFails
  · cases h2 : w.env.writeFails
    · cases h3 : w.env.buildSaveFails
      · cases h4 : db.ImplantBuildByName w req.Name with
        | none => rw [saveBuildStore_ok w req cfg h1 h2 h3 h4]; exact Or.inl rfl
        | some b =>
          rw [saveBuildStore_duplicate w req cfg h1 h2 h3 (by simp [h4])]
          exact Or.inr ⟨rfl, rfl⟩
      · rw [saveBuildStore_save_fails w req cfg h1 h2 h3]; exact Or.inr ⟨rfl, rfl⟩
    · rw [saveBuildStore_write_fails w req cfg h1 h2]; exact Or.inr ⟨rfl, rfl⟩
  · rw [saveBuildStore_tempFile_fails w req cfg h1]; exact Or.inr ⟨rfl, rfl⟩

/-! ## Claims about GenerateExternalSaveBuild -/

/-- C1: when the config id resolves to a config of format EXTERNAL, the name passes the
allowed-name check, no build has the name, and the temp file, its write and the registry
save succeed, `GenerateExternalSaveBuild` returns success, the registry afterwards is the
old one followed by an entry for the name that holds that config (whose id is the
submitted one), a lookup of the name finds that entry, and exactly one event is published:
a `BuildCompletedEvent` whose payload starts with the build name. -/
theorem GenerateExternalSaveBuild_success (d : Deps) (w : World) (req : ExternalImplantBinary)
    (cfg : ImplantConfig) (hcfg : db.ImplantConfigByID w req.ImplantConfigID = some cfg)
    (hfmt : cfg.Format = OutputFormat.EXTERNAL) (hname : d.AllowedName req.Name = true)
    (hnew : db.ImplantBuildByName w req.Name = none)
    (htmp : w.env.tempFileFails = false) (hwrite : w.env.writeFails = false)
    (hsave : w.env.buildSaveFails = false) :
    (GenerateExternalSaveBuild d w req).1 = Except.ok () ∧
      (GenerateExternalSaveBuild d w req).2.builds =
        w.builds ++ [ImplantBuild.mk req.Name cfg ""] ∧
      cfg.ID = req.ImplantConfigID ∧
      db.ImplantBuildByName (GenerateExternalSaveBuild d w req).2 req.Name =
        some (ImplantBuild.mk req.Name cfg "") ∧
      (GenerateExternalSaveBuild d w req).2.events =
        w.events ++ [Event.mk EventType.BuildCompletedEvent (req.Name ++ " build completed")] := by
  have hv := saveBuildValidate_ok d w req cfg hcfg hfmt hname hnew
  have hs := saveBuildStore_ok w req cfg htmp hwrite hsave hnew
  have hfind : List.find? (fun b => b.Name == req.Name) w.builds = none := hnew
  have hg : GenerateExternalSaveBuild d w req = saveBuildStore w req cfg := by
    simp only [GenerateExternalSaveBuild, hv]
  rw [hg, hs]
  refine ⟨rfl, rfl, ImplantConfigByID_id w _ cfg hcfg, ?_, rfl⟩
  simp [db.ImplantBuildByName, List.find?_append, hfind]

/-- Witness of C1: the scenario's submission, "raven-falcon" for `cfg-1` with 1024 bytes. -/
theorem GenerateExternalSaveBuild_success_witness :
    (GenerateExternalSaveBuild specDeps world0 ravenFalcon).1 = Except.ok () ∧
      (GenerateExternalSaveBuild specDeps world0 ravenFalcon).2.builds =
        [ImplantBuild.mk "raven-falcon" (ImplantConfig.mk "cfg-1" OutputFormat.EXTERNAL) ""] ∧
      (GenerateExternalSaveBuild specDeps world0 ravenFalcon).2.events =
        [Event.mk EventType.BuildCompletedEvent "raven-falcon build completed"] := by
  have h := GenerateExternalSaveBuild_success specDeps world0 ravenFalcon
    (ImplantConfig.mk "cfg-1" OutputFormat.EXTERNAL) (by decide) rfl (by decide) (by decide)
    rfl rfl rfl
  exact ⟨h.1, h.2.1, h.2.2.2.2⟩

/-- C2: when a build with the submitted name is already registered (and the config id
resolves to an EXTERNAL config and the name passes the allowed-name check),
`GenerateExternalSaveBuild` fails with `ErrBuildExists` whatever the payload, and the whole
state is as before: same registry, no file touched, no collaborator invoked, no event. -/
theorem GenerateExternalSaveBuild_duplicate (d : Deps) (w : World) (req : ExternalImplantBinary)
    (cfg : ImplantConfig) (b : ImplantBuild)
    (hcfg : db.ImplantConfigByID w req.ImplantConfigID = some cfg)
    (hfmt : cfg.Format = OutputFormat.EXTERNAL) (hname : d.AllowedName req.Name = true)
    (hold : db.ImplantBuildByName w req.Name = some b) :
    GenerateExternalSaveBuild d w req = (Except.error Error.ErrBuildExists, w) := by
  simp [GenerateExternalSaveBuild, saveBuildValidate_exists d w req cfg b hcfg hfmt hname hold]

/-- Witness of C2: a second "raven-falcon" with another payload, after the first. -/
theorem GenerateExternalSaveBuild_duplicate_witness :
    GenerateExternalSaveBuild specDeps world1
        (ExternalImplantBinary.mk "raven-falcon" "cfg-1" [7, 7, 7]) =
      (Except.error Error.ErrBuildExists, world1) :=
  GenerateExternalSaveBuild_duplicate specDeps world1
    (ExternalImplantBinary.mk "raven-falcon" "cfg-1" [7, 7, 7])
    (ImplantConfig.mk "cfg-1" OutputFormat.EXTERNAL)
    (ImplantBuild.mk "raven-falcon" (ImplantConfig.mk "cfg-1" OutputFormat.EXTERNAL) "")
    (by decide) rfl (by decide) (by decide)

/-- C3 as stated fails: the name "../evil" is rejected by the allowed-name check, yet with a
config id that does not resolve the call fails with the config-id error, not with
`ErrInvalidName`. -/
theorem GenerateExternalSaveBuild_evil_unknown_config :
    containsTraversal "../evil" = true ∧ util.AllowedName "../evil" = false ∧
      (GenerateExternalSaveBuild specDeps world0
        (ExternalImplantBinary.mk "../evil" "cfg-9" [1, 2, 3])).1 =
          Except.error (Error.InvalidArgument "invalid implant config id") ∧
      (GenerateExternalSaveBuild specDeps world0
        (ExternalImplantBinary.mk "../evil" "cfg-9" [1, 2, 3])).1 ≠
          Except.error Error.ErrInvalidName := by
  decide

theorem hasDotDot_mem (cs : List Char) (h : hasDotDot cs = true) : '.' ∈ cs := by
  induction cs with
  | nil => simp [hasDotDot] at h
  | cons c cs ih =>
    simp only [hasDotDot, Bool.or_eq_true, Bool.and_eq_true, beq_iff_eq] at h
    rcases h with ⟨h1, _⟩ | h
    · rw [h1]; exact List.mem_cons_self _ _
    · exact List.mem_cons_of_mem _ (ih h)

/-- The allow-list rejects every name that contains a traversal sequence. -/
theorem AllowedName_traversal (name : String) (h : containsTraversal name = true) :
    util.AllowedName name = false := by
  have hmem : '.' ∈ name.data := hasDotDot_mem _ h
  cases hall : util.AllowedName name with
  | false => rfl
  | true =>
    exfalso
    simp only [util.AllowedName, Bool.and_eq_true, List.all_eq_true] at hall
    have := hall.2 '.' hmem
    revert this
    decide

/-- A call with a name the allowed-name check rejects stops at the first of the three
checks of lines 289-300 that fails, in the order of the source, with the state untouched. -/
theorem GenerateExternalSaveBuild_rejected_name (d : Deps) (w : World)
    (req : ExternalImplantBinary) (hname : d.AllowedName req.Name = false) :
    (db.ImplantConfigByID w req.ImplantConfigID = none →
        GenerateExternalSaveBuild d w req =
          (Except.error (Error.InvalidArgument "invalid implant config id"), w)) ∧
      (∀ cfg, db.ImplantConfigByID w req.ImplantConfigID = some cfg →
        cfg.Format ≠ OutputFormat.EXTERNAL →
        GenerateExternalSaveBuild d w req =
          (Except.error (Error.InvalidArgument "invalid implant config format"), w)) ∧
      (∀ cfg, db.ImplantConfigByID w req.ImplantConfigID = some cfg →
        cfg.Format = OutputFormat.EXTERNAL →
        GenerateExternalSaveBuild d w req = (Except.error Error.ErrInvalidName, w)) := by
  refine ⟨?_, ?_, ?_⟩
  · intro hcfg
    simp [GenerateExternalSaveBuild, saveBuildValidate, hcfg]
  · intro cfg hcfg hfmt
    simp [GenerateExternalSaveBuild, saveBuildValidate, hcfg, hfmt]
  · intro cfg hcfg hfmt
    simp [GenerateExternalSaveBuild, saveBuildValidate, hcfg, hfmt, hname]

/-- C3 amended: with the allowed-name check of the spec, for every state, config id and
payload, `GenerateExternalSaveBuild` called with a build name that contains a
path-traversal sequence fails and leaves the whole state as it was (no file written, no
registry write, no collaborator invoked). The error is `ErrInvalidName` when the config id
resolves to a config of format EXTERNAL; it is InvalidArgument "invalid implant config id"
when the config id does not resolve, and InvalidArgument "invalid implant config format"
when it resolves to a config of another format, since those checks run first. -/
theorem GenerateExternalSaveBuild_traversal_name (d : Deps) (w : World)
    (req : ExternalImplantBinary) (hd : d.AllowedName = util.AllowedName)
    (htrav : containsTraversal req.Name = true) :
    (db.ImplantConfigByID w req.ImplantConfigID = none →
        GenerateExternalSaveBuild d w req =
          (Except.error (Error.InvalidArgument "invalid implant config id"), w)) ∧
      (∀ cfg, db.ImplantConfigByID w req.ImplantConfigID = some cfg →
        cfg.Format ≠ OutputFormat.EXTERNAL →
        GenerateExternalSaveBuild d w req =
          (Except.error (Error.InvalidArgument "invalid implant config format"), w)) ∧
      (∀ cfg, db.ImplantConfigByID w req.ImplantConfigID = some cfg →
        cfg.Format = OutputFormat.EXTERNAL →
        GenerateExternalSaveBuild d w req = (Except.error Error.ErrInvalidName, w)) :=
  GenerateExternalSaveBuild_rejected_name d w req
    (by rw [hd]; exact AllowedName_traversal req.Name htrav)

/-- Witness of C3 amended: the name "../evil" submitted for the EXTERNAL config `cfg-1`, for
the EXECUTABLE config `cfg-2` and for the unknown config id `cfg-9`. -/
theorem GenerateExternalSaveBuild_traversal_name_witness :
    containsTraversal "../evil" = true ∧
      GenerateExternalSaveBuild specDeps world0
          (ExternalImplantBinary.mk "../evil" "cfg-1" [1, 2, 3]) =
        (Except.error Error.ErrInvalidName, world0) ∧
      GenerateExternalSaveBuild specDeps world0
          (ExternalImplantBinary.mk "../evil" "cfg-2" [1, 2, 3]) =
        (Except.error (Error.InvalidArgument "invalid implant config format"), world0) ∧
      GenerateExternalSaveBuild specDeps world0
          (ExternalImplantBinary.mk "../evil" "cfg-9" [1, 2, 3]) =
        (Except.error (Error.InvalidArgument "invalid implant config id"), world0) :=
  ⟨by decide,
    (GenerateExternalSaveBuild_traversal_name specDeps world0
      (ExternalImplantBinary.mk "../evil" "cfg-1" [1, 2, 3]) rfl (by decide)).2.2
      (ImplantConfig.mk "cfg-1" OutputFormat.EXTERNAL) (by decide) rfl,
    (GenerateExternalSaveBuild_traversal_name specDeps world0
      (ExternalImplantBinary.mk "../evil" "cfg-2" [1, 2, 3]) rfl (by decide)).2.1
      (ImplantConfig.mk "cfg-2" OutputFormat.EXECUTABLE) (by decide) (by decide),
    (GenerateExternalSaveBuild_traversal_name specDeps world0
      (ExternalImplantBinary.mk "../evil" "cfg-9" [1, 2, 3]) rfl (by decide)).1 (by decide)⟩

/-- C4: when the config id resolves to a config whose format is not EXTERNAL, both
`GenerateExternalSaveBuild` (for every name and payload) and
`GenerateExternalGetImplantConfig` fail with InvalidArgument "invalid implant config
format" and leave the whole state as it was: no codename or one-time secret is generated
(no collaborator is invoked), no registry entry, no file and no event. -/
theorem format_gate (d : Deps) (w : World) (id : String) (cfg : ImplantConfig)
    (hcfg : db.ImplantConfigByID w id = some cfg) (hfmt : cfg.Format ≠ OutputFormat.EXTERNAL) :
    (∀ name data, GenerateExternalSaveBuild d w (ExternalImplantBinary.mk name id data) =
        (Except.error (Error.InvalidArgument "invalid implant config format"), w)) ∧
      (∀ name format, GenerateExternalGetImplantConfig d w (PBImplantConfig.mk id name format) =
        (Except.error (Error.InvalidArgument "invalid implant config format"), w)) := by
  constructor
  · intro name data
    simp [GenerateExternalSaveBuild, saveBuildValidate, hcfg, hfmt]
  · intro name format
    simp [GenerateExternalGetImplantConfig, hcfg, hfmt]

/-- Witness of C4: the config `cfg-2` of format EXECUTABLE. -/
theorem format_gate_witness :
    (∀ name data,
        GenerateExternalSaveBuild specDeps world0 (ExternalImplantBinary.mk name "cfg-2" data) =
          (Except.error (Error.InvalidArgument "invalid implant config format"), world0)) ∧
      (∀ name format,
        GenerateExternalGetImplantConfig specDeps world0 (PBImplantConfig.mk "cfg-2" name format) =
          (Except.error (Error.InvalidArgument "invalid implant config format"), world0)) :=
  format_gate specDeps world0 "cfg-2" (ImplantConfig.mk "cfg-2" OutputFormat.EXECUTABLE)
    (by decide) (by decide)

theorem filesAfterStore_removed (w : World) (data : Bytes) (h : w.env.removeFails = false) :
    filesAfterStore w data = w.files := by
  simp [filesAfterStore, h]

/-- The payload reaches nothing that lasts: two submissions that differ only in their bytes
have the same outcome and leave the same registry and events, and the same files when the
temporary file is removed. -/
theorem GenerateExternalSaveBuild_payload_irrelevant (d : Deps) (w : World)
    (name id : String) (data1 data2 : Bytes) :
    (GenerateExternalSaveBuild d w (ExternalImplantBinary.mk name id data1)).1 =
        (GenerateExternalSaveBuild d w (ExternalImplantBinary.mk name id data2)).1 ∧
      (GenerateExternalSaveBuild d w (ExternalImplantBinary.mk name id data1)).2.builds =
        (GenerateExternalSaveBuild d w (ExternalImplantBinary.mk name id data2)).2.builds ∧
      (w.env.removeFails = false →
        (GenerateExternalSaveBuild d w (ExternalImplantBinary.mk name id data1)).2.files =
          (GenerateExternalSaveBuild d w (ExternalImplantBinary.mk name id data2)).2.files) ∧
      (GenerateExternalSaveBuild d w (ExternalImplantBinary.mk name id data1)).2.events =
        (GenerateExternalSaveBuild d w (ExternalImplantBinary.mk name id data2)).2.events := by
  have hv : saveBuildValidate d w (ExternalImplantBinary.mk name id data1) =
      saveBuildValidate d w (ExternalImplantBinary.mk name id data2) := rfl
  cases hv2 : saveBuildValidate d w (ExternalImplantBinary.mk name id data2) with
  | error e =>
    rw [hv2] at hv
    simp [GenerateExternalSaveBuild, hv, hv2]
  | ok cfg =>
    rw [hv2] at hv
    have hg1 : GenerateExternalSaveBuild d w (ExternalImplantBinary.mk name id data1) =
        saveBuildStore w (ExternalImplantBinary.mk name id data1) cfg := by
      simp only [GenerateExternalSaveBuild, hv]
    have hg2 : GenerateExternalSaveBuild d w (ExternalImplantBinary.mk name id data2) =
        saveBuildStore w (ExternalImplantBinary.mk name id data2) cfg := by
      simp only [GenerateExternalSaveBuild, hv2]
    rw [hg1, hg2]
    have hf : w.env.removeFails = false → filesAfterStore w data1 = filesAfterStore w data2 :=
      fun h => by rw [filesAfterStore_removed w _ h, filesAfterStore_removed w _ h]
    cases h1 : w.env.tempFileFails
    · cases h2 : w.env.writeFails
      · cases h3 : w.env.buildSaveFails
        · cases h4 : db.ImplantBuildByName w name with
          | none =>
            rw [saveBuildStore_ok w _ cfg h1 h2 h3 h4, saveBuildStore_ok w _ cfg h1 h2 h3 h4]
            exact ⟨rfl, rfl, hf, rfl⟩
          | some b =>
            rw [saveBuildStore_duplicate w _ cfg h1 h2 h3 (by simp [h4]),
              saveBuildStore_duplicate w _ cfg h1 h2 h3 (by simp [h4])]
            exact ⟨rfl, rfl, hf, rfl⟩
        · rw [saveBuildStore_save_fails w _ cfg h1 h2 h3,
            saveBuildStore_save_fails w _ cfg h1 h2 h3]
          exact ⟨rfl, rfl, hf, rfl⟩
      · rw [saveBuildStore_write_fails w _ cfg h1 h2, saveBuildStore_write_fails w _ cfg h1 h2]
        exact ⟨rfl, rfl, fun _ => rfl, rfl⟩
    · rw [saveBuildStore_tempFile_fails w _ cfg h1, saveBuildStore_tempFile_fails w _ cfg h1]
      exact ⟨rfl, rfl, fun _ => rfl, rfl⟩

/-- C6 fails on the code: the scenario's submission succeeds, yet the 1024 submitted bytes
were only written to the temporary file, which is removed; no file holds them afterwards,
and the registry entry created for the name carries the empty path handed to
`generate.ImplantBuildSave` on line 317. -/
theorem GenerateExternalSaveBuild_drops_payload :
    (GenerateExternalSaveBuild specDeps world0 ravenFalcon).1 = Except.ok () ∧
      (GenerateExternalSaveBuild specDeps world0 ravenFalcon).2.files = [] ∧
      (GenerateExternalSaveBuild specDeps world0 ravenFalcon).2.calls =
        [Call.TempFile, Call.Write (Path.tmp 0) ravenFalcon.Data,
          Call.ImplantBuildSave "raven-falcon" "cfg-1" "", Call.Remove (Path.tmp 0)] ∧
      (db.ImplantBuildByName (GenerateExternalSaveBuild specDeps world0 ravenFalcon).2
        "raven-falcon").map ImplantBuild.Path = some "" := by
  have hv := saveBuildValidate_ok specDeps world0 ravenFalcon
    (ImplantConfig.mk "cfg-1" OutputFormat.EXTERNAL) (by decide) rfl (by decide) (by decide)
  have hs := saveBuildStore_ok world0 ravenFalcon
    (ImplantConfig.mk "cfg-1" OutputFormat.EXTERNAL) rfl rfl rfl (by decide)
  have hg : GenerateExternalSaveBuild specDeps world0 ravenFalcon =
      saveBuildStore world0 ravenFalcon (ImplantConfig.mk "cfg-1" OutputFormat.EXTERNAL) := by
    simp only [GenerateExternalSaveBuild, hv]
  rw [hg, hs]
  refine ⟨rfl, rfl, rfl, ?_⟩
  decide

/-- C7 as stated fails: on a host where removing the temporary file fails, the scenario's
submission succeeds and the temporary staging file the call created is still there
afterwards, holding the submitted bytes; the handler has dropped the error of `os.Remove`. -/
theorem GenerateExternalSaveBuild_leaves_temp_file :
    (GenerateExternalSaveBuild specDeps world3 ravenFalcon).1 = Except.ok () ∧
      world3.files = [] ∧
      (GenerateExternalSaveBuild specDeps world3 ravenFalcon).2.files =
        [(Path.tmp 0, ravenFalcon.Data)] ∧
      (GenerateExternalSaveBuild specDeps world3 ravenFalcon).2.calls =
        [Call.TempFile, Call.Write (Path.tmp 0) ravenFalcon.Data,
          Call.ImplantBuildSave "raven-falcon" "cfg-1" "", Call.Remove (Path.tmp 0)] := by
  have hv := saveBuildValidate_ok specDeps world3 ravenFalcon
    (ImplantConfig.mk "cfg-1" OutputFormat.EXTERNAL) (by decide) rfl (by decide) (by decide)
  have hs := saveBuildStore_ok world3 ravenFalcon
    (ImplantConfig.mk "cfg-1" OutputFormat.EXTERNAL) rfl rfl rfl (by decide)
  have hg : GenerateExternalSaveBuild specDeps world3 ravenFalcon =
      saveBuildStore world3 ravenFalcon (ImplantConfig.mk "cfg-1" OutputFormat.EXTERNAL) := by
    simp only [GenerateExternalSaveBuild, hv]
  rw [hg, hs]
  exact ⟨rfl, rfl, rfl, rfl⟩

/-- C7 amended: for every input and every outcome of `GenerateExternalSaveBuild`, the call
creates no file other than its temporary staging file. When the deferred `os.Remove`
succeeds, the files after the call are the files before it. When it fails, a call that
passed validation and created the temporary file leaves exactly that file behind (empty
after a failed write, else holding the submitted bytes), on success as on failure, and a
call that stopped earlier leaves the files as they were. After every call that did not
succeed, the registry and the published events are as before. -/
theorem GenerateExternalSaveBuild_residue (d : Deps) (w : World)
    (req : ExternalImplantBinary) :
    (w.env.removeFails = false → (GenerateExternalSaveBuild d w req).2.files = w.files) ∧
      (w.env.removeFails = true →
        (∀ cfg, saveBuildValidate d w req = Except.ok cfg → w.env.tempFileFails = false →
          (GenerateExternalSaveBuild d w req).2.files =
            w.files ++ [(Path.tmp (freshTmp w.files),
              if w.env.writeFails = true then [] else req.Data)]) ∧
        ((∃ e, saveBuildValidate d w req = Except.error e) ∨ w.env.tempFileFails = true →
          (GenerateExternalSaveBuild d w req).2.files = w.files)) ∧
      ((GenerateExternalSaveBuild d w req).1 = Except.ok () ∨
        ((GenerateExternalSaveBuild d w req).2.builds = w.builds ∧
          (GenerateExternalSaveBuild d w req).2.events = w.events)) := by
  cases hv : saveBuildValidate d w req with
  | error e =>
    have hg : GenerateExternalSaveBuild d w req = (Except.error e, w) := by
      simp only [GenerateExternalSaveBuild, hv]
    rw [hg]
    refine ⟨fun _ => rfl, fun _ => ⟨?_, fun _ => rfl⟩, Or.inr ⟨rfl, rfl⟩⟩
    intro cfg hc
    cases hc
  | ok cfg =>
    have hg : GenerateExternalSaveBuild d w req = saveBuildStore w req cfg := by
      simp only [GenerateExternalSaveBuild, hv]
    rw [hg]
    have hf := saveBuildStore_files w req cfg
    refine ⟨?_, ?_, saveBuildStore_failed w req cfg⟩
    · intro hr
      rw [hf, filesAfterStore_removed w _ hr]
      simp
    · intro hr
      constructor
      · intro cfg2 _ ht
        rw [hf]
        simp [ht, filesAfterStore, hr]
      · intro h
        rcases h with ⟨e, he⟩ | ht
        · cases he
        · rw [hf]
          simp [ht]

/-- Witness of C7 amended: the scenario's submission where the removal succeeds and where
it fails. -/
theorem GenerateExternalSaveBuild_residue_witness :
    (GenerateExternalSaveBuild specDeps world0 ravenFalcon).2.files = world0.files ∧
      (GenerateExternalSaveBuild specDeps world3 ravenFalcon).2.files =
        world3.files ++ [(Path.tmp (freshTmp world3.files), ravenFalcon.Data)] :=
  ⟨(GenerateExternalSaveBuild_residue specDeps world0 ravenFalcon).1 rfl,
    ((GenerateExternalSaveBuild_residue specDeps world3 ravenFalcon).2.1 rfl).1
      (ImplantConfig.mk "cfg-1" OutputFormat.EXTERNAL)
      (saveBuildValidate_ok specDeps world3 ravenFalcon
        (ImplantConfig.mk "cfg-1" OutputFormat.EXTERNAL) (by decide) rfl (by decide)
        (by decide)) rfl⟩

/-! ## GenerateExternal and the format of the config -/

/-- C5 as stated fails: for a request named "x" whose config has format EXECUTABLE,
`GenerateExternal` does invoke the ticket issuer `generate.SliverExternal` (the only
collaborator call logged), and it has overwritten the request's format with EXTERNAL. -/
theorem GenerateExternal_invokes_issuer :
    (specDeps.ImplantConfigFromProtobuf
        (PBImplantConfig.mk "cfg-2" "x" OutputFormat.EXECUTABLE)).2.map ImplantConfig.Format =
      some OutputFormat.EXECUTABLE ∧
    (GenerateExternal specDeps world0
        (GenerateReq.mk (PBImplantConfig.mk "cfg-2" "x" OutputFormat.EXECUTABLE))).2.2.calls =
      [Call.SliverExternal "x" "cfg-2"] ∧
    (GenerateExternal specDeps world0
        (GenerateReq.mk (PBImplantConfig.mk "cfg-2" "x" OutputFormat.EXECUTABLE))).2.1.Config.Format =
      OutputFormat.EXTERNAL := by
  decide

/-- C5 amended: for a request whose config has a format other than EXTERNAL,
`GenerateExternal` checks no format itself. With a name (the request's, or a generated
codename when the request's is empty) it overwrites the request's format with EXTERNAL and
invokes the ticket issuer once on the config; the issuer rejects the config with the
format-mismatch error, which is returned: no ticket, no `ExternalBuildEvent`. When the
name is empty and no codename can be generated, the codename error is returned and the
issuer is not invoked. In every case the events are as before. -/
theorem GenerateExternal_non_external (d : Deps) (w : World) (req : GenerateReq)
    (name : String) (cfg : ImplantConfig)
    (hconv : d.ImplantConfigFromProtobuf req.Config = (name, some cfg))
    (hfmt : cfg.Format ≠ OutputFormat.EXTERNAL) :
    (name ≠ "" →
        GenerateExternal d w req =
          (Except.error (Error.Collab CollabError.FormatMismatch),
            GenerateReq.mk (PBImplantConfig.mk req.Config.ID req.Config.Name OutputFormat.EXTERNAL),
            { w with calls := w.calls ++ [Call.SliverExternal name cfg.ID] })) ∧
      (name = "" → ∀ codename, w.env.codename = some codename →
        GenerateExternal d w req =
          (Except.error (Error.Collab CollabError.FormatMismatch),
            GenerateReq.mk (PBImplantConfig.mk req.Config.ID req.Config.Name OutputFormat.EXTERNAL),
            { w with calls := w.calls ++ [Call.GetCodename, Call.SliverExternal codename cfg.ID] })) ∧
      (name = "" → w.env.codename = none →
        GenerateExternal d w req =
          (Except.error (Error.Collab CollabError.CodenameFailure), req,
            { w with calls := w.calls ++ [Call.GetCodename] })) ∧
      (GenerateExternal d w req).2.2.events = w.events := by
  refine ⟨?_, ?_, ?_, ?_⟩
  · intro hne
    simp [GenerateExternal, hconv, hne, generate.SliverExternal, hfmt, logCall]
  · intro he codename hc
    simp [GenerateExternal, hconv, he, codenames.GetCodename, hc, generate.SliverExternal, hfmt,
      logCall]
  · intro he hc
    simp [GenerateExternal, hconv, he, codenames.GetCodename, hc, logCall]
  · by_cases hne : name = ""
    · cases hc : w.env.codename with
      | none => simp [GenerateExternal, hconv, hne, codenames.GetCodename, hc, logCall]
      | some codename =>
        simp [GenerateExternal, hconv, hne, codenames.GetCodename, hc, generate.SliverExternal,
          hfmt, logCall]
    · simp [GenerateExternal, hconv, hne, generate.SliverExternal, hfmt, logCall]

/-- Witness of C5 amended: the request named "x" for a config of format EXECUTABLE. -/
theorem GenerateExternal_non_external_witness :
    GenerateExternal specDeps world0
        (GenerateReq.mk (PBImplantConfig.mk "cfg-2" "x" OutputFormat.EXECUTABLE)) =
      (Except.error (Error.Collab CollabError.FormatMismatch),
        GenerateReq.mk (PBImplantConfig.mk "cfg-2" "x" OutputFormat.EXTERNAL),
        { world0 with calls := [Call.SliverExternal "x" "cfg-2"] }) :=
  (GenerateExternal_non_external specDeps world0
    (GenerateReq.mk (PBImplantConfig.mk "cfg-2" "x" OutputFormat.EXECUTABLE)) "x"
    (ImplantConfig.mk "cfg-2" OutputFormat.EXECUTABLE) rfl (by decide)).1 (by decide)

/-! ## DeleteImplantBuild -/

theorem ImplantBuildByName_erase (builds : List ImplantBuild) (build : ImplantBuild)
    (hnodup : (builds.map ImplantBuild.Name).Nodup) (hmem : build ∈ builds) :
    List.find? (fun b => b.Name == build.Name) (builds.erase build) = none := by
  rw [List.find?_eq_none]
  intro b hb hname
  have hnd : builds.Nodup := List.Nodup.of_map _ hnodup
  have hb1 := (List.Nodup.mem_erase_iff hnd).mp hb
  have heq : b.Name = build.Name := by simpa using hname
  exact hb1.1 (List.inj_on_of_nodup_map hnodup hb1.2 hmem heq)

/-- C9: in a registry without duplicate names, for a registered build name, when the
registry deletion succeeds and the artifact deletion fails, `DeleteImplantBuild` returns
the artifact step's error, the registry has lost the entry and nothing else changed in it,
files and events are as before (no event published), a later lookup of the name finds
nothing and a later delete fails with the lookup error; and for a name that is not
registered the call fails with the lookup error and changes nothing. -/
theorem DeleteImplantBuild_artifact_failure (w : World) (req : DeleteReq) :
    (∀ build, db.ImplantBuildByName w req.Name = some build →
        (w.builds.map ImplantBuild.Name).Nodup →
        w.env.dbDeleteFails = false → w.env.fileDeleteFails = true →
        (DeleteImplantBuild w req).1 = Except.error (Error.Collab CollabError.StorageFailure) ∧
          (DeleteImplantBuild w req).2.builds = w.builds.erase build ∧
          (DeleteImplantBuild w req).2.files = w.files ∧
          (DeleteImplantBuild w req).2.events = w.events ∧
          db.ImplantBuildByName (DeleteImplantBuild w req).2 req.Name = none ∧
          DeleteImplantBuild (DeleteImplantBuild w req).2 req =
            (Except.error (Error.Collab CollabError.NotFound), (DeleteImplantBuild w req).2)) ∧
      (db.ImplantBuildByName w req.Name = none →
        DeleteImplantBuild w req = (Except.error (Error.Collab CollabError.NotFound), w)) := by
  constructor
  · intro build hb hnodup hdb hfile
    have hn : build.Name = req.Name := ImplantBuildByName_name w _ build hb
    have hmem : build ∈ w.builds := List.mem_of_find?_eq_some hb
    have hg : DeleteImplantBuild w req =
        (Except.error (Error.Collab CollabError.StorageFailure),
          { w with
            builds := w.builds.erase build
            calls := w.calls ++ [Call.DbDelete req.Name, Call.ImplantFileDelete req.Name] }) := by
      simp [DeleteImplantBuild, hb, db.Delete, hdb, generate.ImplantFileDelete, hfile, logCall, hn]
    have hl : db.ImplantBuildByName
        { w with
          builds := w.builds.erase build
          calls := w.calls ++ [Call.DbDelete req.Name, Call.ImplantFileDelete req.Name] }
        req.Name = none := by
      rw [← hn]
      exact ImplantBuildByName_erase w.builds build hnodup hmem
    rw [hg]
    refine ⟨rfl, rfl, rfl, rfl, hl, ?_⟩
    simp only [DeleteImplantBuild, hl]
  · intro hnone
    simp [DeleteImplantBuild, hnone]

/-- Witness of C9: deleting "raven-falcon" while the artifact deletion fails, then again. -/
theorem DeleteImplantBuild_artifact_failure_witness :
    (DeleteImplantBuild world2 (DeleteReq.mk "raven-falcon")).1 =
        Except.error (Error.Collab CollabError.StorageFailure) ∧
      (DeleteImplantBuild world2 (DeleteReq.mk "raven-falcon")).2.builds = [] ∧
      (DeleteImplantBuild world2 (DeleteReq.mk "raven-falcon")).2.events = world2.events ∧
      (DeleteImplantBuild (DeleteImplantBuild world2 (DeleteReq.mk "raven-falcon")).2
        (DeleteReq.mk "raven-falcon")).1 = Except.error (Error.Collab CollabError.NotFound) ∧
      DeleteImplantBuild world0 (DeleteReq.mk "raven-falcon") =
        (Except.error (Error.Collab CollabError.NotFound), world0) := by
  have h := DeleteImplantBuild_artifact_failure world2 (DeleteReq.mk "raven-falcon")
  have h1 := h.1 (ImplantBuild.mk "raven-falcon" (ImplantConfig.mk "cfg-1" OutputFormat.EXTERNAL) "")
    (by decide) (by decide) rfl rfl
  have h0 := (DeleteImplantBuild_artifact_failure world0 (DeleteReq.mk "raven-falcon")).2
    (by decide)
  refine ⟨h1.1, ?_, h1.2.2.2.1, ?_, h0⟩
  · rw [h1.2.1]; decide
  · rw [h1.2.2.2.2.2]

/-! ## SaveImplantProfile and filepath.Base -/

/-- C10 fails on the code: for the requested name "/", `filepath.Base` returns "/", which
is neither empty nor "."; the profile is saved under "/" and the event published, and
the saved name contains the path separator. -/
theorem SaveImplantProfile_saves_separator :
    filepath.Base "/" = "/" ∧
      (SaveImplantProfile specDeps world0
        (ImplantProfile.mk "/" (PBImplantConfig.mk "cfg-1" "" OutputFormat.EXTERNAL))).1 =
          Except.ok (ImplantProfile.mk "/" (PBImplantConfig.mk "cfg-1" "" OutputFormat.EXTERNAL)) ∧
      (SaveImplantProfile specDeps world0
        (ImplantProfile.mk "/" (PBImplantConfig.mk "cfg-1" "" OutputFormat.EXTERNAL))).2.profiles =
          [("/", some (ImplantConfig.mk "cfg-1" OutputFormat.EXTERNAL))] ∧
      (SaveImplantProfile specDeps world0
        (ImplantProfile.mk "/" (PBImplantConfig.mk "cfg-1" "" OutputFormat.EXTERNAL))).2.calls =
          [Call.SaveImplantProfile "/"] ∧
      '/' ∈ (filepath.Base "/").data ∧ os.IsPathSeparator '/' = true := by
  decide

theorem filepath.Base_separator (path : String) :
    filepath.Base path = "/" ∨ ∀ c ∈ (filepath.Base path).data, os.IsPathSeparator c = false := by
  unfold filepath.Base
  by_cases h : path = ""
  · right
    simp only [h, if_true]
    intro c hc
    have : c = '.' := by simpa using hc
    subst this
    decide
  · simp only [h, if_false]
    by_cases hl : filepath.lastElement (filepath.stripTrailing path.data) = []
    · left
      simp [hl]
    · right
      simp only [hl, if_false]
      intro c hc
      unfold filepath.lastElement at hc
      have h1 := List.mem_takeWhile_imp (List.mem_reverse.mp hc)
      simpa using h1

/-- What does hold of `SaveImplantProfile`: it fails with "invalid profile name" and changes
nothing, or it invokes `generate.SaveImplantProfile` with `filepath.Base` of the requested
name, which is not empty, not ".", and either is the lone separator "/" or holds none. -/
theorem SaveImplantProfile_name (d : Deps) (w : World) (profile : ImplantProfile) :
    SaveImplantProfile d w profile = (Except.error Error.InvalidProfileName, w) ∨
      ((SaveImplantProfile d w profile).2.calls =
          w.calls ++ [Call.SaveImplantProfile (filepath.Base profile.Name)] ∧
        filepath.Base profile.Name ≠ "" ∧ filepath.Base profile.Name ≠ "." ∧
        (filepath.Base profile.Name = "/" ∨
          ∀ c ∈ (filepath.Base profile.Name).data, os.IsPathSeparator c = false)) := by
  by_cases hg : 0 < (filepath.Base profile.Name).length ∧ filepath.Base profile.Name ≠ "."
  · right
    have hne : filepath.Base profile.Name ≠ "" := by
      intro h0
      rw [h0] at hg
      exact absurd hg.1 (by decide)
    refine ⟨?_, hne, hg.2, filepath.Base_separator profile.Name⟩
    cases hf : w.env.profileSaveFails <;>
      simp [SaveImplantProfile, hg, generate.SaveImplantProfile, hf, logCall,
        core.EventBroker.Publish]
  · left
    simp only [SaveImplantProfile, hg, if_false]

/-! ## Concurrent submissions of one name -/

theorem stepAt_spec (d : Deps) (i : Nat) (w : World) (ts : List Thread) :
    stepAt d i w ts = (w, ts) ∨
      ∃ pre t post, ts = pre ++ t :: post ∧
        stepAt d i w ts = ((Thread.step d w t).2, pre ++ (Thread.step d w t).1 :: post) := by
  induction ts generalizing i with
  | nil => left; cases i <;> rfl
  | cons t ts ih =>
    cases i with
    | zero => right; exact ⟨[], t, ts, rfl, rfl⟩
    | succ i =>
      rcases ih i with h | ⟨pre, u, post, h1, h2⟩
      · left
        simp only [stepAt, h]
      · right
        refine ⟨t :: pre, u, post, by simp [h1], ?_⟩
        simp only [stepAt, h2, List.cons_append]

theorem registered_false_iff (w : World) (name : String) :
    registered w name = false ↔ db.ImplantBuildByName w name = none := by
  unfold registered
  cases db.ImplantBuildByName w name <;> simp

theorem not_mem_names_of_unregistered (w : World) (name : String)
    (h : db.ImplantBuildByName w name = none) : name ∉ w.builds.map ImplantBuild.Name := by
  intro hm
  obtain ⟨b, hb, hbn⟩ := List.mem_map.mp hm
  have h1 : List.find? (fun b => b.Name == name) w.builds = none := h
  have := List.find?_eq_none.mp h1 b hb
  simp [hbn] at this

theorem countP_replace (p : Thread → Bool) (pre post : List Thread) (t u : Thread)
    (h : p t = p u) : (pre ++ u :: post).countP p = (pre ++ t :: post).countP p := by
  simp [List.countP_append, List.countP_cons, h]

theorem forall_replace (P : Thread → Prop) (pre post : List Thread) (t u : Thread)
    (h : ∀ x ∈ pre ++ t :: post, P x) (hu : P u) : ∀ x ∈ pre ++ u :: post, P x := by
  intro x hx
  rcases List.mem_append.mp hx with hx | hx
  · exact h x (List.mem_append_left _ hx)
  · rcases List.mem_cons.mp hx with hx | hx
    · exact hx ▸ hu
    · exact h x (List.mem_append_right _ (List.mem_cons_of_mem _ hx))

/-- One step of one call keeps the invariant. -/
theorem Thread.step_inv (d : Deps) (w0 : World) (name : String)
    (hname : d.AllowedName name = true) (htmp : w0.env.tempFileFails = false)
    (hwrite : w0.env.writeFails = false) (hsave : w0.env.buildSaveFails = false)
    (w : World) (pre post : List Thread) (t : Thread)
    (hinv : RaceInv w0 name w (pre ++ t :: post)) :
    RaceInv w0 name (Thread.step d w t).2 (pre ++ (Thread.step d w t).1 :: post) := by
  have hwf : Thread.wellFormed w0 name t := hinv.wf t (by simp)
  have htmp1 : w.env.tempFileFails = false := by rw [hinv.env]; exact htmp
  have hwrite1 : w.env.writeFails = false := by rw [hinv.env]; exact hwrite
  have hsave1 : w.env.buildSaveFails = false := by rw [hinv.env]; exact hsave
  cases t with
  | start req =>
    obtain ⟨hn, cfg, hcfg, hfmt⟩ := hwf
    have hcfg1 : db.ImplantConfigByID w req.ImplantConfigID = some cfg := by
      unfold db.ImplantConfigByID at hcfg ⊢
      rw [hinv.configs]; exact hcfg
    cases hreg : db.ImplantBuildByName w req.Name with
    | none =>
      have hv : saveBuildValidate d w req = Except.ok cfg :=
        saveBuildValidate_ok d w req cfg hcfg1 hfmt (hn ▸ hname) hreg
      simp only [Thread.step, hv]
      exact ⟨hinv.configs, hinv.env, hinv.nodup,
        forall_replace _ pre post _ _ hinv.wf hn,
        (countP_replace Thread.succeeded pre post (Thread.start req)
          (Thread.validated req cfg) rfl).trans hinv.count,
        fun h => forall_replace _ pre post _ _ (hinv.fresh h) rfl⟩
    | some b =>
      have hv : saveBuildValidate d w req = Except.error Error.ErrBuildExists :=
        saveBuildValidate_exists d w req cfg b hcfg1 hfmt (hn ▸ hname) hreg
      have hr : registered w name = true := by
        unfold registered; rw [← hn, hreg]; rfl
      simp only [Thread.step, hv]
      exact ⟨hinv.configs, hinv.env, hinv.nodup,
        forall_replace _ pre post _ _ hinv.wf (Or.inr (Or.inl rfl)),
        (countP_replace Thread.succeeded pre post (Thread.start req)
          (Thread.done (Except.error Error.ErrBuildExists)) rfl).trans hinv.count,
        fun h => by rw [hr] at h; cases h⟩
  | validated req cfg =>
    have hn : req.Name = name := hwf
    cases hreg : db.ImplantBuildByName w req.Name with
    | none =>
      have hs := saveBuildStore_ok w req cfg htmp1 hwrite1 hsave1 hreg
      have hr0 : registered w name = false := by
        rw [registered_false_iff, ← hn]; exact hreg
      have hc0 := hinv.count
      simp only [hr0, Bool.false_eq_true, if_false, List.countP_append, List.countP_cons,
        Thread.succeeded] at hc0
      simp only [Thread.step, hs]
      refine ⟨hinv.configs, hinv.env, ?_, forall_replace _ pre post _ _ hinv.wf (Or.inl rfl),
        ?_, ?_⟩
      · have hnot := not_mem_names_of_unregistered w req.Name hreg
        simp only [List.map_append, List.map_cons, List.map_nil]
        exact List.Nodup.append hinv.nodup (List.nodup_singleton _)
          (by simpa [List.Disjoint] using hnot)
      · have hr1 : registered
            { w with
              builds := w.builds ++ [ImplantBuild.mk req.Name cfg ""]
              files := filesAfterStore w req.Data
              events := w.events ++
                [Event.mk EventType.BuildCompletedEvent (req.Name ++ " build completed")]
              calls := w.calls ++ [Call.TempFile,
                Call.Write (Path.tmp (freshTmp w.files)) req.Data,
                Call.ImplantBuildSave req.Name cfg.ID "",
                Call.Remove (Path.tmp (freshTmp w.files))] } name = true := by
          have hfind : List.find? (fun b => b.Name == req.Name) w.builds = none := hreg
          simp [registered, db.ImplantBuildByName, ← hn, List.find?_append, hfind]
        rw [hr1]
        simp only [List.countP_append, List.countP_cons, Thread.succeeded, if_true]
        omega
      · intro h
        have hfind : List.find? (fun b => b.Name == req.Name) w.builds = none := hreg
        simp [registered, db.ImplantBuildByName, ← hn, List.find?_append, hfind] at h
    | some b =>
      have hs := saveBuildStore_duplicate w req cfg htmp1 hwrite1 hsave1 (by simp [hreg])
      have hr : registered w name = true := by
        unfold registered; rw [← hn, hreg]; rfl
      simp only [Thread.step, hs]
      exact ⟨hinv.configs, hinv.env, hinv.nodup,
        forall_replace _ pre post _ _ hinv.wf (Or.inr (Or.inr rfl)),
        (countP_replace Thread.succeeded pre post (Thread.validated req cfg)
          (Thread.done (Except.error (Error.Collab CollabError.DuplicateName))) rfl).trans
          hinv.count,
        fun h => by
          have h1 : registered w name = false := h
          rw [hr] at h1; cases h1⟩
  | done r =>
    simpa only [Thread.step] using hinv

theorem stepAt_inv (d : Deps) (w0 : World) (name : String)
    (hname : d.AllowedName name = true) (htmp : w0.env.tempFileFails = false)
    (hwrite : w0.env.writeFails = false) (hsave : w0.env.buildSaveFails = false)
    (i : Nat) (w : World) (ts : List Thread) (hinv : RaceInv w0 name w ts) :
    RaceInv w0 name (stepAt d i w ts).1 (stepAt d i w ts).2 := by
  rcases stepAt_spec d i w ts with h | ⟨pre, t, post, h1, h2⟩
  · rw [h]; exact hinv
  · rw [h2]
    subst h1
    exact Thread.step_inv d w0 name hname htmp hwrite hsave w pre post t hinv

theorem stepAt_length (d : Deps) (i : Nat) (w : World) (ts : List Thread) :
    (stepAt d i w ts).2.length = ts.length := by
  rcases stepAt_spec d i w ts with h | ⟨pre, t, post, h1, h2⟩
  · rw [h]
  · rw [h2]
    subst h1
    simp

theorem runSchedule_inv (d : Deps) (w0 : World) (name : String)
    (hname : d.AllowedName name = true) (htmp : w0.env.tempFileFails = false)
    (hwrite : w0.env.writeFails = false) (hsave : w0.env.buildSaveFails = false)
    (sched : List Nat) (w : World) (ts : List Thread) (hinv : RaceInv w0 name w ts) :
    RaceInv w0 name (runSchedule d sched w ts).1 (runSchedule d sched w ts).2 := by
  induction sched generalizing w ts with
  | nil => exact hinv
  | cons i sched ih =>
    simp only [runSchedule]
    exact ih _ _ (stepAt_inv d w0 name hname htmp hwrite hsave i w ts hinv)

theorem runSchedule_length (d : Deps) (sched : List Nat) (w : World) (ts : List Thread) :
    (runSchedule d sched w ts).2.length = ts.length := by
  induction sched generalizing w ts with
  | nil => rfl
  | cons i sched ih =>
    simp only [runSchedule]
    rw [ih, stepAt_length]

theorem RaceInv.init (w : World) (name : String) (reqs : List ExternalImplantBinary)
    (hreqs : ∀ r ∈ reqs, r.Name = name ∧
      ∃ cfg, db.ImplantConfigByID w r.ImplantConfigID = some cfg ∧
        cfg.Format = OutputFormat.EXTERNAL)
    (hnew : db.ImplantBuildByName w name = none)
    (hnodup : (w.builds.map ImplantBuild.Name).Nodup) :
    RaceInv w name w (reqs.map Thread.start) := by
  have hr : registered w name = false := (registered_false_iff w name).mpr hnew
  refine ⟨rfl, rfl, hnodup, ?_, ?_, ?_⟩
  · intro t ht
    obtain ⟨r, hr1, hr2⟩ := List.mem_map.mp ht
    subst hr2
    exact hreqs r hr1
  · rw [hr]
    simp only [Bool.false_eq_true, if_false]
    rw [List.countP_eq_zero]
    intro t ht
    obtain ⟨r, _, hr2⟩ := List.mem_map.mp ht
    subst hr2
    simp [Thread.succeeded]
  · intro _ t ht
    obtain ⟨r, _, hr2⟩ := List.mem_map.mp ht
    subst hr2
    rfl

theorem count_succeeded_add_failed (w0 : World) (name : String) (ts : List Thread)
    (hwf : ∀ t ∈ ts, Thread.wellFormed w0 name t) (hdone : ts.all Thread.isDone = true) :
    ts.countP Thread.succeeded + ts.countP Thread.failedDuplicate = ts.length := by
  induction ts with
  | nil => rfl
  | cons t ts ih =>
    have hd : t.isDone = true ∧ ts.all Thread.isDone = true := by
      simpa [List.all_cons] using hdone
    have h1 := ih (fun x hx => hwf x (List.mem_cons_of_mem _ hx)) hd.2
    have ht := hwf t (List.mem_cons_self _ _)
    cases t with
    | start req => simp [Thread.isDone] at hd
    | validated req cfg => simp [Thread.isDone] at hd
    | done r =>
      rcases ht with h | h | h <;> subst h <;>
        simp [List.countP_cons, Thread.succeeded, Thread.failedDuplicate] <;> omega

theorem stepAt_getElem? (d : Deps) (i j : Nat) (w : World) (ts : List Thread) :
    (stepAt d j w ts).2[i]? =
      if i = j then (ts[i]?).map (fun t => (Thread.step d w t).1) else ts[i]? := by
  induction ts generalizing i j with
  | nil => cases j <;> simp [stepAt]
  | cons t ts ih =>
    cases j with
    | zero =>
      cases i with
      | zero => simp [stepAt]
      | succ i => simp [stepAt]
    | succ j =>
      cases i with
      | zero => simp [stepAt]
      | succ i => simp [stepAt, ih i j]

theorem stepAt_world (d : Deps) (j : Nat) (w : World) (ts : List Thread) :
    (stepAt d j w ts).1 =
      match ts[j]? with
      | none => w
      | some t => (Thread.step d w t).2 := by
  induction ts generalizing j with
  | nil => cases j <;> simp [stepAt]
  | cons t ts ih =>
    cases j with
    | zero => simp [stepAt]
    | succ j => simp [stepAt, ih j]

theorem Thread.rank_step (d : Deps) (w : World) (t : Thread) :
    (Thread.step d w t).1.rank ≤ t.rank - 1 := by
  cases t with
  | start req =>
    simp only [Thread.step]
    cases saveBuildValidate d w req <;> simp [Thread.rank]
  | validated req cfg => simp [Thread.step, Thread.rank]
  | done r => simp [Thread.step, Thread.rank]

theorem rankAt_stepAt (d : Deps) (i j : Nat) (w : World) (ts : List Thread) :
    rankAt (stepAt d j w ts).2 i ≤ rankAt ts i - (if i = j then 1 else 0) := by
  unfold rankAt
  rw [stepAt_getElem?]
  by_cases h : i = j
  · simp only [h, if_true]
    cases ts[j]? with
    | none => simp
    | some t => exact Thread.rank_step d w t
  · simp only [h, if_false]
    omega

/-- Every step of call `i` in the schedule takes one off the steps it has left. -/
theorem rankAt_runSchedule (d : Deps) (sched : List Nat) (i : Nat) (w : World)
    (ts : List Thread) :
    rankAt (runSchedule d sched w ts).2 i ≤ rankAt ts i - sched.count i := by
  induction sched generalizing w ts with
  | nil => simp [runSchedule]
  | cons j sched ih =>
    simp only [runSchedule]
    have h1 := ih (stepAt d j w ts).1 (stepAt d j w ts).2
    have h2 := rankAt_stepAt d i j w ts
    rw [List.count_cons]
    by_cases h : i = j
    · subst h
      simp only [if_true, beq_self_eq_true] at h2 ⊢
      omega
    · have h3 : (j == i) = false := by
        simp only [beq_eq_false_iff_ne, ne_eq]
        exact fun hji => h hji.symm
      simp only [h, if_false, h3] at h2 ⊢
      simp only [Bool.false_eq_true, if_false]
      omega

theorem rankAt_le_two (ts : List Thread) (i : Nat) : rankAt ts i ≤ 2 := by
  unfold rankAt
  cases ts[i]? with
  | none => simp
  | some t => cases t <;> simp [Thread.rank]

/-- A schedule that steps every call at least twice lets every call return. -/
theorem runSchedule_complete (d : Deps) (sched : List Nat) (w : World) (ts : List Thread)
    (hfair : ∀ i, i < ts.length → 2 ≤ sched.count i) :
    (runSchedule d sched w ts).2.all Thread.isDone = true := by
  rw [List.all_eq_true]
  intro t ht
  obtain ⟨i, hi, hti⟩ := List.getElem_of_mem ht
  have hlen : i < ts.length := by rw [← runSchedule_length d sched w ts]; exact hi
  have h1 := rankAt_runSchedule d sched i w ts
  have h2 := rankAt_le_two ts i
  have h3 := hfair i hlen
  have h4 : rankAt (runSchedule d sched w ts).2 i = t.rank := by
    unfold rankAt
    rw [List.getElem?_eq_getElem hi, hti]
  have h5 : t.rank = 0 := by omega
  cases t with
  | start req => simp [Thread.rank] at h5
  | validated req cfg => simp [Thread.rank] at h5
  | done r => rfl

theorem Thread.settles_refl (t : Thread) : Thread.settles t t := by
  cases t with
  | start req => exact Or.inl rfl
  | validated req cfg => exact Or.inl rfl
  | done r => rfl

theorem Thread.settles_trans (t u v : Thread) (h1 : Thread.settles t u)
    (h2 : Thread.settles u v) : Thread.settles t v := by
  cases t with
  | start req =>
    rcases h1 with h | h
    · subst h; exact h2
    · subst h; right; exact h2
  | validated req cfg =>
    rcases h1 with h | h
    · subst h; exact h2
    · subst h; right; exact h2
  | done r =>
    have h : u = Thread.done r := h1
    subst h
    exact h2

theorem settlesAll_refl (ts : List Thread) : settlesAll ts ts :=
  fun _ t ht => ⟨t, ht, Thread.settles_refl t⟩

theorem settlesAll_trans (ts1 ts2 ts3 : List Thread) (h1 : settlesAll ts1 ts2)
    (h2 : settlesAll ts2 ts3) : settlesAll ts1 ts3 := by
  intro j t ht
  obtain ⟨u, hu, htu⟩ := h1 j t ht
  obtain ⟨v, hv, huv⟩ := h2 j u hu
  exact ⟨v, hv, Thread.settles_trans t u v htu huv⟩

/-- Once the name is registered, a step of a call keeps it registered and ends the call, if
at all, with the duplicate error of the check it had not yet passed. -/
theorem Thread.step_settles (d : Deps) (w0 : World) (name : String)
    (hname : d.AllowedName name = true) (htmp : w0.env.tempFileFails = false)
    (hwrite : w0.env.writeFails = false) (hsave : w0.env.buildSaveFails = false)
    (w : World) (t : Thread) (hcfgs : w.configs = w0.configs) (henv : w.env = w0.env)
    (hwf : Thread.wellFormed w0 name t) (hreg : registered w name = true) :
    Thread.settles t (Thread.step d w t).1 ∧ registered (Thread.step d w t).2 name = true := by
  have htmp1 : w.env.tempFileFails = false := by rw [henv]; exact htmp
  have hwrite1 : w.env.writeFails = false := by rw [henv]; exact hwrite
  have hsave1 : w.env.buildSaveFails = false := by rw [henv]; exact hsave
  cases t with
  | start req =>
    obtain ⟨hn, cfg, hcfg, hfmt⟩ := hwf
    have hcfg1 : db.ImplantConfigByID w req.ImplantConfigID = some cfg := by
      unfold db.ImplantConfigByID at hcfg ⊢
      rw [hcfgs]; exact hcfg
    cases hb : db.ImplantBuildByName w req.Name with
    | none =>
      rw [← hn] at hreg
      simp [registered, hb] at hreg
    | some b =>
      have hv : saveBuildValidate d w req = Except.error Error.ErrBuildExists :=
        saveBuildValidate_exists d w req cfg b hcfg1 hfmt (hn ▸ hname) hb
      simp only [Thread.step, hv]
      exact ⟨Or.inr rfl, hreg⟩
  | validated req cfg =>
    have hn : req.Name = name := hwf
    have hsome : (db.ImplantBuildByName w req.Name).isSome = true := by
      rw [hn]; exact hreg
    have hs := saveBuildStore_duplicate w req cfg htmp1 hwrite1 hsave1 hsome
    simp only [Thread.step, hs]
    exact ⟨Or.inr rfl, hreg⟩
  | done r =>
    simp only [Thread.step]
    exact ⟨rfl, hreg⟩

theorem stepAt_settles (d : Deps) (w0 : World) (name : String)
    (hname : d.AllowedName name = true) (htmp : w0.env.tempFileFails = false)
    (hwrite : w0.env.writeFails = false) (hsave : w0.env.buildSaveFails = false)
    (i : Nat) (w : World) (ts : List Thread) (hinv : RaceInv w0 name w ts)
    (hreg : registered w name = true) :
    settlesAll ts (stepAt d i w ts).2 ∧ registered (stepAt d i w ts).1 name = true := by
  constructor
  · intro j t ht
    rw [stepAt_getElem?]
    by_cases h : j = i
    · subst h
      simp only [if_true, ht, Option.map_some']
      exact ⟨_, rfl, (Thread.step_settles d w0 name hname htmp hwrite hsave w t hinv.configs
        hinv.env (hinv.wf t (List.getElem?_mem ht)) hreg).1⟩
    · simp only [h, if_false]
      exact ⟨t, ht, Thread.settles_refl t⟩
  · rw [stepAt_world]
    cases ht : ts[i]? with
    | none => exact hreg
    | some t =>
      exact (Thread.step_settles d w0 name hname htmp hwrite hsave w t hinv.configs
        hinv.env (hinv.wf t (List.getElem?_mem ht)) hreg).2

theorem runSchedule_settles (d : Deps) (w0 : World) (name : String)
    (hname : d.AllowedName name = true) (htmp : w0.env.tempFileFails = false)
    (hwrite : w0.env.writeFails = false) (hsave : w0.env.buildSaveFails = false)
    (sched : List Nat) (w : World) (ts : List Thread) (hinv : RaceInv w0 name w ts)
    (hreg : registered w name = true) :
    settlesAll ts (runSchedule d sched w ts).2 := by
  induction sched generalizing w ts with
  | nil => exact settlesAll_refl ts
  | cons i sched ih =>
    simp only [runSchedule]
    have h1 := stepAt_settles d w0 name hname htmp hwrite hsave i w ts hinv hreg
    exact settlesAll_trans _ _ _ h1.1
      (ih _ _ (stepAt_inv d w0 name hname htmp hwrite hsave i w ts hinv) h1.2)

/-- C8 amended: take a name that passes the allowed-name check and is not yet registered,
a registry without duplicate names, any number K of calls of `GenerateExternalSaveBuild`
for that name whose config ids resolve to EXTERNAL configs, and no temp-file, write or
registry-save failure. After any schedule `s1` of their pre-check and save steps (so at
every moment of every interleaving): the registry holds no two entries with the same name
and at most one call has succeeded; while the name is not registered no call has returned;
once it is registered, whatever schedule `s2` follows, a call that had not yet run its
pre-check can only end with `ErrBuildExists` and a call that was past its pre-check can
only end with the duplicate-name error of `generate.ImplantBuildSave`, returned unchanged.
Every schedule that steps each call at least twice lets all calls return; and once all
calls (at least one) have returned, exactly one has succeeded and the other K-1 have
failed on the duplicate name. -/
theorem concurrent_submissions (d : Deps) (w : World) (name : String)
    (reqs : List ExternalImplantBinary) (s1 s2 : List Nat)
    (hname : d.AllowedName name = true)
    (hreqs : ∀ r ∈ reqs, r.Name = name ∧
      ∃ cfg, db.ImplantConfigByID w r.ImplantConfigID = some cfg ∧
        cfg.Format = OutputFormat.EXTERNAL)
    (hnew : db.ImplantBuildByName w name = none)
    (hnodup : (w.builds.map ImplantBuild.Name).Nodup)
    (htmp : w.env.tempFileFails = false) (hwrite : w.env.writeFails = false)
    (hsave : w.env.buildSaveFails = false) :
    ((submitAll d w reqs s1).1.builds.map ImplantBuild.Name).Nodup ∧
      (submitAll d w reqs s1).2.countP Thread.succeeded ≤ 1 ∧
      (registered (submitAll d w reqs s1).1 name = false →
        ∀ t ∈ (submitAll d w reqs s1).2, t.isDone = false) ∧
      (registered (submitAll d w reqs s1).1 name = true →
        settlesAll (submitAll d w reqs s1).2
          (runSchedule d s2 (submitAll d w reqs s1).1 (submitAll d w reqs s1).2).2) ∧
      ((∀ i, i < reqs.length → 2 ≤ s1.count i) →
        (submitAll d w reqs s1).2.all Thread.isDone = true) ∧
      (reqs ≠ [] → (submitAll d w reqs s1).2.all Thread.isDone = true →
        (submitAll d w reqs s1).2.countP Thread.succeeded = 1 ∧
          (submitAll d w reqs s1).2.countP Thread.failedDuplicate = reqs.length - 1) := by
  unfold submitAll
  have hinv := runSchedule_inv d w name hname htmp hwrite hsave s1 w _
    (RaceInv.init w name reqs hreqs hnew hnodup)
  have hlen := runSchedule_length d s1 w (reqs.map Thread.start)
  rw [List.length_map] at hlen
  refine ⟨hinv.nodup, ?_, hinv.fresh, ?_, ?_, ?_⟩
  · rw [hinv.count]
    split <;> omega
  · intro hreg
    exact runSchedule_settles d w name hname htmp hwrite hsave s2 _ _ hinv hreg
  · intro hfair
    apply runSchedule_complete
    intro i hi
    rw [List.length_map] at hi
    exact hfair i hi
  · intro hne hdone
    have hsum := count_succeeded_add_failed w name _ hinv.wf hdone
    have hreg : registered (runSchedule d s1 w (reqs.map Thread.start)).1 name = true := by
      cases hr : registered (runSchedule d s1 w (reqs.map Thread.start)).1 name with
      | true => rfl
      | false =>
        exfalso
        have hf := hinv.fresh hr
        cases hts : (runSchedule d s1 w (reqs.map Thread.start)).2 with
        | nil =>
          rw [hts] at hlen
          exact hne (List.length_eq_zero.mp hlen.symm)
        | cons t ts =>
          rw [hts] at hf hdone
          have h1 := hf t (List.mem_cons_self _ _)
          have h2 : t.isDone = true := by
            have := hdone
            simp only [List.all_cons, Bool.and_eq_true] at this
            exact this.1
          rw [h1] at h2
          cases h2
    have hc := hinv.count
    rw [hreg] at hc
    simp only [if_true] at hc
    refine ⟨hc, ?_⟩
    omega

/-- Witness of C8 amended: two submissions of "raven-falcon" that both pass the pre-check
before either saves; and, from the moment the first has saved, what is left to the
second. -/
theorem concurrent_submissions_witness :
    (submitAll specDeps world0 twoCalls [0, 1, 0, 1]).2.all Thread.isDone = true ∧
      (submitAll specDeps world0 twoCalls [0, 1, 0, 1]).2.countP Thread.succeeded = 1 ∧
      (submitAll specDeps world0 twoCalls [0, 1, 0, 1]).2.countP Thread.failedDuplicate = 1 ∧
      settlesAll (submitAll specDeps world0 twoCalls [0, 1, 0]).2
        (submitAll specDeps world0 twoCalls [0, 1, 0, 1]).2 := by
  have hreqs : ∀ r ∈ twoCalls, r.Name = "raven-falcon" ∧
      ∃ cfg, db.ImplantConfigByID world0 r.ImplantConfigID = some cfg ∧
        cfg.Format = OutputFormat.EXTERNAL := by
    intro r hr
    simp only [twoCalls, List.mem_cons, List.mem_singleton, List.not_mem_nil, or_false] at hr
    rcases hr with hr | hr <;> subst hr <;>
      exact ⟨rfl, ImplantConfig.mk "cfg-1" OutputFormat.EXTERNAL, by decide, rfl⟩
  have h := concurrent_submissions specDeps world0 "raven-falcon" twoCalls [0, 1, 0, 1] []
    (by decide) hreqs (by decide) (by decide) rfl rfl rfl
  have h2 := concurrent_submissions specDeps world0 "raven-falcon" twoCalls [0, 1, 0] [1]
    (by decide) hreqs (by decide) (by decide) rfl rfl rfl
  have hdone := h.2.2.2.2.1 (by decide)
  exact ⟨hdone, (h.2.2.2.2.2 (by decide) hdone).1, (h.2.2.2.2.2 (by decide) hdone).2,
    h2.2.2.2.1 (by decide)⟩

/-- C8 as stated fails. For a name that is already registered, two calls both fail and none
succeeds; and when two calls for a new name both pass the pre-check before either saves,
the loser returns the error of `generate.ImplantBuildSave` (line 319), not the handler's
`ErrBuildExists`. -/
theorem concurrent_submissions_as_stated_fails :
    (runSchedule specDeps [0, 1, 0, 1] world1 (twoCalls.map Thread.start)).2 =
        [Thread.done (Except.error Error.ErrBuildExists),
          Thread.done (Except.error Error.ErrBuildExists)] ∧
      (runSchedule specDeps [0, 1, 0, 1] world1
        (twoCalls.map Thread.start)).2.countP Thread.succeeded = 0 ∧
      (runSchedule specDeps [0, 1, 0, 1] world0 (twoCalls.map Thread.start)).2 =
        [Thread.done (Except.ok ()),
          Thread.done (Except.error (Error.Collab CollabError.DuplicateName))] ∧
      (runSchedule specDeps [0, 1, 0, 1] world0
        (twoCalls.map Thread.start)).2.countP Thread.failedBuildExists = 0 := by
  decide

/-- Run alone, the two steps of a call are the handler. -/
theorem Thread.step_step (d : Deps) (w : World) (req : ExternalImplantBinary) :
    runSchedule d [0, 0] w [Thread.start req] =
      ((GenerateExternalSaveBuild d w req).2,
        [Thread.done (GenerateExternalSaveBuild d w req).1]) := by
  cases hv : saveBuildValidate d w req with
  | error e => simp [runSchedule, stepAt, Thread.step, GenerateExternalSaveBuild, hv]
  | ok cfg => simp [runSchedule, stepAt, Thread.step, GenerateExternalSaveBuild, hv]

end Sliver
